import Mathlib

/-!
Shallow embedding of the response-reshaping core of the `eikon` client
library (`eikon/time_series.py` and the response classifier
`check_server_error` of `eikon/json_requests.py`).

Conventions of the embedding:
* Python strings are Lean `String`; Python `str.find`/slicing/`replace`
  are modelled character-exactly (including the `find = -1` pitfall).
* JSON records of the `timeseriesData` array become the `TimeSeries`
  structure; per the documented wire format, `ric`, `statusCode`,
  `fields` and `dataPoints` are always present while `errorMessage`
  may be absent (`Option`).
* numpy/pandas behaviour is modelled only where the code relies on it:
  `np.array(dataPoints)` is 2-d only for a non-empty rectangular input
  (otherwise column indexing raises `IndexError`), `dtype=datetime64`
  parsing validates an ISO date prefix, and `pd.concat(axis=1)` keeps a
  common identical index as is and otherwise outer-joins on the sorted
  union of the (duplicate-free) indexes.  The `dtype=float` coercion of
  cell values is not modelled: cells are kept as their raw strings,
  since no verified property concerns the numeric coercion itself.
* Raised Python exceptions are the `.error` branch of `Except PyErr`.
-/

/-- Python exceptions that the modelled code can raise. -/
inductive PyErr where
  | eikon (code : String) (message : String)
  | httpError (message : String)
  | indexError (message : String)
  | valueError (message : String)
  | attributeError (message : String)
  deriving DecidableEq, Repr

/-- One record of the `timeseriesData` array of a TimeSeries response. -/
structure TimeSeries where
  ric : String
  statusCode : String
  errorMessage : Option String
  fields : List String
  dataPoints : List (List String)
  deriving DecidableEq, Repr

/-- A decoded TimeSeries response body. -/
structure TSResult where
  timeseriesData : List TimeSeries
  deriving DecidableEq, Repr

/-! ### Python string primitives -/

/-- Index of the first occurrence of `pat` in `s` (`str.find` when it
succeeds; `none` models the `-1` result). -/
def firstOcc (pat : List Char) : List Char → Option Nat
  | [] => if pat = [] then some 0 else none
  | c :: tl =>
    if pat = (c :: tl).take pat.length then some 0
    else (firstOcc pat tl).map (· + 1)

/-- Python `s[s.find(pat):]`: the suffix of `s` from the first occurrence
of `pat`; when `pat` is absent, `find` yields `-1` and the slice `s[-1:]`
is the LAST character of `s` (empty for empty `s`). -/
def pyFindSlice (s pat : String) : String :=
  match firstOcc pat.data s.data with
  | some i => ⟨s.data.drop i⟩
  | none => ⟨s.data.drop (s.data.length - 1)⟩

/-- Replace every (leftmost, non-overlapping) occurrence of `pat` by
`rep`, with fuel; mirrors Python `str.replace` for non-empty `pat`. -/
def replaceFuel (pat rep : List Char) : List Char → Nat → List Char
  | s, 0 => s
  | [], _ => []
  | c :: tl, fuel + 1 =>
    if pat ≠ [] ∧ pat = (c :: tl).take pat.length then
      rep ++ replaceFuel pat rep ((c :: tl).drop pat.length) fuel
    else c :: replaceFuel pat rep tl fuel

/-- Python `s.replace(pat, rep)` for non-empty `pat`. -/
def pyReplace (s pat rep : String) : String :=
  ⟨replaceFuel pat.data rep.data s.data s.data.length⟩

/-- Python `s.lower()` (ASCII is all the code needs). -/
def pyLower (s : String) : String := ⟨s.data.map Char.toLower⟩

/-- Python `s.startswith(p)`. -/
def pyStarts (s p : String) : Bool := p.data = s.data.take p.data.length

/-- Python `s.endswith(p)`. -/
def pyEnds (s p : String) : Bool :=
  decide (s.data.length ≥ p.data.length) &&
    (p.data = s.data.drop (s.data.length - p.data.length))

/-- Split a character list at every occurrence of `c`
(`str.split` with a one-character separator). -/
def splitOnChar (c : Char) : List Char → List (List Char)
  | [] => [[]]
  | x :: tl =>
    let r := splitOnChar c tl
    if x = c then [] :: r
    else
      match r with
      | [] => [[x]]
      | h :: t => (x :: h) :: t

/-- Python `s.split(c)` for a one-character separator. -/
def pySplit (s : String) (c : Char) : List String :=
  (splitOnChar c s.data).map (fun l => ⟨l⟩)

/-! ### get_timeseries: per-instrument error aggregation
(`time_series.py` lines 160-188) -/

/-- `ts_error_message[ts_error_message.find("Description"):]` followed by
`.replace('Description', ts_instrument)`: the instrument-scoped message
built for one failing instrument. -/
def instrumentScopedMessage (ric msg : String) : String :=
  pyReplace (pyFindSlice msg "Description") "Description" ric

/-- The loop over `ts_status_errors`: returns the warnings emitted (one
per failing instrument, in order, up to a crash) and either the combined
diagnostic string or the exception raised when an `errorMessage` is
absent (`None.find` is an `AttributeError`). -/
def collectErrorMessages : List TimeSeries → List String × Except PyErr String
  | [] => ([], .ok "")
  | t :: rest =>
    match t.errorMessage with
    | none => ([], .error (.attributeError "NoneType object has no attribute find"))
    | some m =>
      let msg := instrumentScopedMessage t.ric m
      let (ws, r) := collectErrorMessages rest
      (("Error with " ++ msg) :: ws, r.map (fun s => msg ++ " | " ++ s))

/-- The records counted as failed by `get_timeseries`:
`statusCode == 'Error'`, an exact case-sensitive comparison. -/
def tsStatusErrors (d : List TimeSeries) : List TimeSeries :=
  d.filter (fun t => t.statusCode == "Error")

/-! ### numpy / pandas primitives -/

/-- A `numpy.datetime64` value, as produced by
`np.array(column, dtype='datetime64')` from an ISO date string.  The
validated source string is kept as the canonical representation; two
values are the same instant iff the strings coincide (the responses use
one uniform format). -/
structure Datetime64 where
  val : String
  deriving DecidableEq, Repr

/-- Shallow validity check for a `datetime64` source string: an ISO
`YYYY-MM-DD` prefix, optionally followed by a `T...` time part. -/
def validIsoDatetime (s : String) : Bool :=
  match s.data with
  | y1 :: y2 :: y3 :: y4 :: d1 :: m1 :: m2 :: d2 :: a1 :: a2 :: rest =>
    y1.isDigit && y2.isDigit && y3.isDigit && y4.isDigit &&
    (d1 = '-') && m1.isDigit && m2.isDigit && (d2 = '-') &&
    a1.isDigit && a2.isDigit &&
    (match rest with
     | [] => true
     | c :: _ => c = 'T')
  | _ => false

/-- `np.array(col, dtype='datetime64')`: parse every entry or raise. -/
def parseColumn : List String → Except PyErr (List Datetime64)
  | [] => .ok []
  | s :: rest =>
    if validIsoDatetime s then (parseColumn rest).map (Datetime64.mk s :: ·)
    else .error (.valueError ("could not convert string to datetime64: " ++ s))

/-- `np.array(rows)` followed by `[:, i]` and `np.delete(-, i, 1)`.
An empty or ragged `rows` builds a 1-d array, so the 2-d column indexing
raises `IndexError`; so does a column index beyond the row width.
On success: the `i`-th column and the rows with that column removed. -/
def npTake (rows : List (List String)) (i : Nat) :
    Except PyErr (List String × List (List String)) :=
  match rows with
  | [] => .error (.indexError "too many indices for array")
  | r0 :: rest =>
    if rest.all (fun r => r.length == r0.length) then
      if i < r0.length then
        .ok (rows.map (fun r => r.getD i ""), rows.map (fun r => r.eraseIdx i))
      else .error (.indexError "index out of bounds")
    else .error (.indexError "too many indices for array")

/-- Python `list.index` for the `'TIMESTAMP'` lookup: position of the
first occurrence (`none` models the `ValueError`). -/
def idxOfTs : List String → Option Nat
  | [] => none
  | f :: fs => if f == "TIMESTAMP" then some 0 else (idxOfTs fs).map (· + 1)

/-- A column label of a pandas frame: a plain name, or a
`(Security, Field)` pair of the two-level shape. -/
inductive ColLabel where
  | single (s : String)
  | pair (ric : String) (fld : String)
  deriving DecidableEq, Repr

/-- A per-instrument pandas DataFrame as built by `_get_frame_list`:
timestamp row index plus the remaining field columns (raw cell text;
the `dtype='float'` coercion is not modelled). -/
structure PDFrame where
  columns : List ColLabel
  indexName : Option String
  index : List Datetime64
  cells : List (List String)
  deriving DecidableEq, Repr

instance : Inhabited PDFrame := ⟨⟨[], none, [], []⟩⟩

/-- The wide result of `pd.concat(axis=1)` plus the axis labelling that
the shape functions add.  `cells` is row-major over `index × columns`;
`none` is the missing-value marker (NaN) of the outer join. -/
structure WideFrame where
  columns : List ColLabel
  colAxisName : Option String
  colNames : List String
  indexName : Option String
  index : List Datetime64
  cells : List (List (Option String))
  deriving DecidableEq, Repr

/-- Cell accessor: row `i` (an index position), column `j`. -/
def WideFrame.cellAt (w : WideFrame) (i j : Nat) : Option String :=
  (w.cells.getD i []).getD j none

/-- Comparison of `datetime64` values (lexicographic on the uniform ISO
text, which is chronological order). -/
def dtLe (a b : Datetime64) : Prop := a.val.data.map Char.toNat ≤ b.val.data.map Char.toNat

instance : DecidableRel dtLe := fun a b => by
  unfold dtLe; infer_instance

instance : IsTotal Datetime64 dtLe :=
  ⟨fun a b => le_total (a.val.data.map Char.toNat) (b.val.data.map Char.toNat)⟩

instance : IsTrans Datetime64 dtLe :=
  ⟨fun _ _ _ hab hbc => le_trans hab hbc⟩

/-- `pd.concat(axis=1)` fast path test: all indexes identical. -/
def ccIdentical (dfs : List PDFrame) : Bool :=
  match dfs with
  | [] => true
  | d :: rest => rest.all (fun x => x.index == d.index)

/-- First-seen union of the index lists (before the join sorts it). -/
def seenUnion (idxs : List (List Datetime64)) : List Datetime64 :=
  idxs.foldl (fun acc i => acc ++ i.filter (fun x => !(acc.contains x))) []

/-- The row index of `pd.concat(axis=1)`: an identical common index is
kept as is; otherwise the outer join takes the sorted union. -/
def ccIndex (dfs : List PDFrame) : List Datetime64 :=
  if ccIdentical dfs then (dfs.headD default).index
  else List.insertionSort dtLe (seenUnion (dfs.map (·.index)))

/-- The reindexed row of one input frame at union timestamp `t`:
its own row where `t` occurs in its index, all-missing otherwise. -/
def rowFor (df : PDFrame) (t : Datetime64) : List (Option String) :=
  match df.index.findIdx? (fun x => x == t) with
  | some k => (df.cells.getD k []).map some
  | none => List.replicate df.columns.length none

/-- The common index name surviving `pd.concat` (kept when all inputs
agree). -/
def commonIndexName (dfs : List PDFrame) : Option String :=
  match dfs with
  | [] => none
  | d :: rest => if rest.all (fun x => x.indexName == d.indexName) then d.indexName else none

/-- The cell matrix of `pd.concat(axis=1)`: positional on the fast path,
reindexed per union timestamp otherwise. -/
def ccCells (dfs : List PDFrame) : List (List (Option String)) :=
  if ccIdentical dfs then
    (List.range (dfs.headD default).index.length).map
      (fun k => dfs.flatMap (fun df => (df.cells.getD k []).map some))
  else (ccIndex dfs).map (fun t => dfs.flatMap (fun df => rowFor df t))

/-- `pd.concat(data_frames, axis=1)`: empty input raises; non-identical
indexes with duplicate labels cannot be reindexed and raise; otherwise
columns are juxtaposed over the (kept or outer-joined) row index. -/
def concatOuter (dfs : List PDFrame) : Except PyErr WideFrame :=
  match dfs with
  | [] => .error (.valueError "No objects to concatenate")
  | _ :: _ =>
    if ¬ ccIdentical dfs = true ∧ ∃ df ∈ dfs, ¬ df.index.Nodup then
      .error (.valueError "cannot reindex from a duplicate axis")
    else
      .ok { columns := dfs.flatMap (·.columns), colAxisName := none, colNames := [],
            indexName := commonIndexName dfs, index := ccIndex dfs, cells := ccCells dfs }

/-! ### NiceDataFrame_Formatter (`time_series.py` lines 224-287) -/

/-- The body of the `_get_frame_list` loop for one ok record: locate
`'TIMESTAMP'` in the field names (`ValueError` when absent), pop it,
extract/parse the timestamp column as the index, delete that column from
the data, and build the per-instrument frame (the `pd.DataFrame`
constructor checks that the column list matches the data width). -/
def mkFrame (t : TimeSeries) : Except PyErr PDFrame :=
  match idxOfTs t.fields with
  | none => .error (.valueError "TIMESTAMP is not in list")
  | some ti =>
    match npTake t.dataPoints ti with
    | .error e => .error e
    | .ok (rawTs, dp) =>
      match parseColumn rawTs with
      | .error e => .error e
      | .ok idx =>
        let fields2 := t.fields.eraseIdx ti
        if fields2.length = (dp.headD []).length then
          .ok { columns := fields2.map ColLabel.single, indexName := some "Date",
                index := idx, cells := dp }
        else .error (.valueError "Shape of passed values mismatch")

/-- The field names of a record with the first `'TIMESTAMP'` popped
(meaningful once `idxOfTs` succeeded). -/
def fieldsMinusTsL (fs : List String) : List String :=
  fs.eraseIdx ((idxOfTs fs).getD 0)

/-- `_get_frame_list`: iterate the records, skip those whose
`statusCode.lower() == 'error'`, and return the frames, the rics in
order and the `unique_fields` of the LAST contributing record. -/
def get_frame_list : List TimeSeries → Except PyErr (List PDFrame × List String × List String)
  | [] => .ok ([], [], [])
  | t :: rest =>
    if pyLower t.statusCode == "error" then get_frame_list rest
    else
      match mkFrame t with
      | .error e => .error e
      | .ok df =>
        match get_frame_list rest with
        | .error e => .error e
        | .ok (dfs, rics, flds) =>
          .ok (df :: dfs, t.ric :: rics,
               if rics.isEmpty then fieldsMinusTsL t.fields else flds)

/-- `_get_frame_1_ric_N_fields`: concat (a single frame) and label the
column axis with the instrument. -/
def get_frame_1_ric_N_fields (dfs : List PDFrame) (ricName : String) :
    Except PyErr WideFrame :=
  match concatOuter dfs with
  | .error e => .error e
  | .ok w => .ok { w with colAxisName := some ricName }

/-- The per-frame column rename of `_get_frame_N_rics_1_field`:
`df.rename(columns={fieldName: ric})`. -/
def renameFrames (dfs : List PDFrame) (rics : List String) (fieldName : String) :
    List PDFrame :=
  (dfs.zip rics).map (fun p =>
    let cols := p.1.columns.map
      (fun c => if c == ColLabel.single fieldName then ColLabel.single p.2 else c)
    { p.1 with columns := cols })

/-- `_get_frame_N_rics_1_field`: rename each single column to its ric,
concat, and label the column axis with the field. -/
def get_frame_N_rics_1_field (dfs : List PDFrame) (rics : List String)
    (fieldName : String) : Except PyErr WideFrame :=
  match concatOuter (renameFrames dfs rics fieldName) with
  | .error e => .error e
  | .ok w => .ok { w with colAxisName := some fieldName }

/-- `df.columns = pd.MultiIndex.from_tuples([(ric, f) for f in fields])`:
pandas refuses a length mismatch with the existing columns. -/
def setPairColumns (df : PDFrame) (ric : String) (flds : List String) :
    Except PyErr PDFrame :=
  if flds.length = df.columns.length then
    .ok { df with columns := flds.map (fun f => ColLabel.pair ric f) }
  else .error (.valueError "Length mismatch: columns")

/-- The column-assignment loop of `_get_frame_N_rics_N_fields`. -/
def setAllPairColumns (dfs : List PDFrame) (rics : List String)
    (flds : List String) : Except PyErr (List PDFrame) :=
  match dfs, rics with
  | [], _ => .ok []
  | df :: dtl, ric :: rtl =>
    match setPairColumns df ric flds with
    | .error e => .error e
    | .ok df2 =>
      match setAllPairColumns dtl rtl flds with
      | .error e => .error e
      | .ok rest2 => .ok (df2 :: rest2)
  | _ :: _, [] => .error (.indexError "list index out of range")

/-- `_get_frame_N_rics_N_fields`: give every frame the
`(ric, field)` two-level columns, concat, and name the two column
levels `Security` and `Field`. -/
def get_frame_N_rics_N_fields (dfs : List PDFrame) (rics : List String)
    (flds : List String) : Except PyErr WideFrame :=
  match setAllPairColumns dfs rics flds with
  | .error e => .error e
  | .ok dfs2 =>
    match concatOuter dfs2 with
    | .error e => .error e
    | .ok w => .ok { w with colNames := ["Security", "Field"] }

/-- The value of `NiceDataFrame_Formatter.get_data_frame`: either the
raw Python list of frames (the `R == 0 or F == 0` early return) or one
wide frame. -/
inductive NiceRet where
  | frameList (dfs : List PDFrame)
  | frame (w : WideFrame)
  deriving DecidableEq, Repr

/-- `NiceDataFrame_Formatter.get_data_frame`: build the frame list and
select the output shape from the number of rics and fields. -/
def niceGetDataFrame (ts : TSResult) : Except PyErr NiceRet :=
  match get_frame_list ts.timeseriesData with
  | .error e => .error e
  | .ok (dfs, rics, flds) =>
    if rics.length = 0 ∨ flds.length = 0 then .ok (.frameList dfs)
    else if rics.length = 1 then
      match get_frame_1_ric_N_fields dfs (rics.headD "") with
      | .error e => .error e
      | .ok w => .ok (.frame w)
    else if rics.length > 1 ∧ flds.length = 1 then
      match get_frame_N_rics_1_field dfs rics (flds.headD "") with
      | .error e => .error e
      | .ok w => .ok (.frame w)
    else
      match get_frame_N_rics_N_fields dfs rics flds with
      | .error e => .error e
      | .ok w => .ok (.frame w)

/-! ### NormalizedDataFrame_Formatter (`time_series.py` lines 191-221) -/

/-- One long-form row: (Date, Security, Field, Value). -/
abbrev LongRow := Datetime64 × String × String × String

/-- The long-form table: column names plus rows. -/
structure LongFrame where
  columns : List String
  rows : List LongRow
  deriving DecidableEq, Repr

/-- Pointwise zip of the four per-record column arrays into rows. -/
def zip4 {α β γ δ : Type} : List α → List β → List γ → List δ → List (α × β × γ × δ)
  | a :: as_, b :: bs, c :: cs, d :: ds => (a, b, c, d) :: zip4 as_ bs cs ds
  | _, _, _, _ => []

/-- The loop body of `NormalizedDataFrame_Formatter.get_data_frame` for
one ok record: the same timestamp extraction as the nice formatter,
then the four flat column arrays (`Security` = ric repeated, `Field` =
field names tiled per data row, `Value` = the row-major flattening of
the remaining data, `Date` = each timestamp repeated per field) zipped
into long-form rows. -/
def normalizedRecordRows (t : TimeSeries) : Except PyErr (List LongRow) :=
  match idxOfTs t.fields with
  | none => .error (.valueError "TIMESTAMP is not in list")
  | some ti =>
    match npTake t.dataPoints ti with
    | .error e => .error e
    | .ok (rawTs, dp) =>
      match parseColumn rawTs with
      | .error e => .error e
      | .ok idx =>
        let fields2 := t.fields.eraseIdx ti
        let fc := fields2.length
        let n := dp.length
        let symbolColumn := List.replicate (fc * n) t.ric
        let fieldsColumn := (List.replicate n fields2).flatten
        let valuesColumn := dp.flatten
        let timestampColumn := (idx.map (fun x => List.replicate fc x)).flatten
        .ok (zip4 timestampColumn symbolColumn fieldsColumn valuesColumn)

/-- The record loop of the normalized formatter: skip records whose
`statusCode.lower() == 'error'`, collect every other record's rows. -/
def normalizedRowsList : List TimeSeries → Except PyErr (List (List LongRow))
  | [] => .ok []
  | t :: rest =>
    if pyLower t.statusCode == "error" then normalizedRowsList rest
    else
      match normalizedRecordRows t with
      | .error e => .error e
      | .ok rows =>
        match normalizedRowsList rest with
        | .error e => .error e
        | .ok ls => .ok (rows :: ls)

/-- `NormalizedDataFrame_Formatter.get_data_frame`: build one frame per
contributing record and `pd.concat` them in order (an empty list cannot
be concatenated and raises). -/
def normalizedGetDataFrame (ts : TSResult) : Except PyErr LongFrame :=
  match normalizedRowsList ts.timeseriesData with
  | .error e => .error e
  | .ok [] => .error (.valueError "No objects to concatenate")
  | .ok ls => .ok { columns := ["Date", "Security", "Field", "Value"], rows := ls.flatten }

/-! ### get_timeseries response phase (`time_series.py` lines 160-188) -/

/-- What `get_timeseries` holds in `data_frame`. -/
inductive DFRet where
  | nice (r : NiceRet)
  | long (lf : LongFrame)
  deriving DecidableEq, Repr

/-- Python `len(data_frame)`. -/
def dfLen : DFRet → Nat
  | .nice (.frameList dfs) => dfs.length
  | .nice (.frame w) => w.index.length
  | .long lf => lf.rows.length

/-- `data_frame.fillna(pd.np.nan)`: the identity on a frame (missing
markers stay missing), but an `AttributeError` on the bare Python list
that the `R == 0 or F == 0` path returned. -/
def dfFillna : DFRet → Except PyErr DFRet
  | .nice (.frameList _) => .error (.attributeError "list object has no attribute fillna")
  | r => .ok r

/-- The response-processing phase of `get_timeseries` (after
`send_json_request`, with `raw_output=False`): count the `'Error'`
records, warn per failing instrument, raise `EikonError` when every
record failed, otherwise build the (normalized or nice) frame and apply
the `fillna` step.  Returns the warnings emitted and the outcome. -/
def get_timeseries_post (ts : TSResult) (normalize : Bool) :
    List String × Except PyErr DFRet :=
  let errs := tsStatusErrors ts.timeseriesData
  let wr := collectErrorMessages errs
  match wr.2 with
  | .error e => (wr.1, .error e)
  | .ok combined =>
    if errs.length = ts.timeseriesData.length then
      (wr.1, .error (.eikon "Error" combined))
    else
      let built : Except PyErr DFRet :=
        if normalize then (normalizedGetDataFrame ts).map DFRet.long
        else (niceGetDataFrame ts).map DFRet.nice
      match built with
      | .error e => (wr.1, .error e)
      | .ok df =>
        if dfLen df > 0 then
          match dfFillna df with
          | .error e => (wr.1, .error e)
          | .ok df2 => (wr.1, .ok df2)
        else (wr.1, .ok df)

/-! ### check_server_error (`json_requests.py` lines 102-142) -/

/-- A decoded JSON response body as `check_server_error` sees it: a
string, or a flat object (values rendered as text; only key membership
and the `ErrorMessage`/`error` values matter to the function). -/
inductive Body where
  | jstr (s : String)
  | jobj (fields : List (String × String))
  deriving DecidableEq, Repr

/-- The keys of the body (`'k' in server_response`). -/
def bodyKeys : Body → List String
  | .jstr _ => []
  | .jobj fs => fs.map (·.1)

/-- `server_response[k]` (first binding). -/
def bodyGet (b : Body) (k : String) : Option String :=
  match b with
  | .jstr _ => none
  | .jobj fs => (fs.find? (fun kv => kv.1 == k)).map (·.2)

/-- Python `str(server_response)`: a string is itself; a dict renders
between braces (only the first and last characters matter here). -/
def strRepr : Body → String
  | .jstr s => s
  | .jobj fs =>
    "\x7b" ++ String.intercalate ", " (fs.map (fun kv => kv.1 ++ ": " ++ kv.2)) ++ "\x7d"

/-- `check_server_error`: bracketed text is a transport error; a body
with `ErrorCode` and `ErrorMessage` keys is a service error, but first
the message is best-effort parsed as a 5-part comma list whose first
part is split on `':'` and indexed at 1 (an `IndexError` when no colon
is present); a body with `error` and `transactionId` keys is a grid
error; anything else passes.  (The `hasattr(server_response,
'ErrorCode')` test is always false for decoded JSON values and is
elided.) -/
def check_server_error (b : Body) : Except PyErr Unit :=
  let sr := strRepr b
  if pyStarts sr "<" && pyEnds sr ">" then .error (.httpError sr)
  else if (bodyKeys b).contains "ErrorCode" && (bodyKeys b).contains "ErrorMessage" then
    let errorMessage := (bodyGet b "ErrorMessage").getD ""
    let parts := pySplit errorMessage ','
    if parts.length > 4 then
      let status := parts.headD ""
      if (pySplit status ':').length < 2 then
        .error (.indexError "list index out of range")
      else .error (.httpError errorMessage)
    else .error (.httpError errorMessage)
  else if (bodyKeys b).contains "error" && (bodyKeys b).contains "transactionId" then
    .error (.httpError ((bodyGet b "error").getD ""))
  else .ok ()

/-! ### Derived forms used by the verification -/

/-- A record that the formatters keep: `statusCode.lower() != 'error'`. -/
def okRecord (t : TimeSeries) : Bool := !(pyLower t.statusCode == "error")

/-- The records contributing to a table. -/
def oksOf (d : List TimeSeries) : List TimeSeries := d.filter okRecord

/-- Position of `'TIMESTAMP'` in a record's field list. -/
def tsPos (t : TimeSeries) : Nat := (idxOfTs t.fields).getD 0

/-- The raw timestamp column of a record. -/
def rawTsColumn (t : TimeSeries) : List String :=
  t.dataPoints.map (fun r => r.getD (tsPos t) "")

/-- The parsed (typed) timestamp index of a record. -/
def parsedIndex (t : TimeSeries) : List Datetime64 :=
  (rawTsColumn t).map Datetime64.mk

/-- The data rows of a record with the timestamp column removed. -/
def deletedPoints (t : TimeSeries) : List (List String) :=
  t.dataPoints.map (fun r => r.eraseIdx (tsPos t))

/-- The per-instrument frame `_get_frame_list` builds for an ok record. -/
def frameOf (t : TimeSeries) : PDFrame :=
  { columns := (fieldsMinusTsL t.fields).map ColLabel.single,
    indexName := some "Date", index := parsedIndex t, cells := deletedPoints t }

/-- Well-formedness of an ok record under the documented wire contract:
`'TIMESTAMP'` occurs exactly once among the fields, the data is a
non-empty rectangle matching the field list, and the timestamp column
holds distinct parseable instants. -/
def recordWf (t : TimeSeries) : Bool :=
  t.fields.count "TIMESTAMP" == 1 &&
  !t.dataPoints.isEmpty &&
  t.dataPoints.all (fun r => r.length == t.fields.length) &&
  (rawTsColumn t).all validIsoDatetime &&
  decide (rawTsColumn t).Nodup

/-- `unique_fields` after the `_get_frame_list` loop: the popped field
list of the LAST contributing record. -/
def lastFields : List TimeSeries → List String
  | [] => []
  | [t] => fieldsMinusTsL t.fields
  | _ :: t :: rest => lastFields (t :: rest)

/-- The long-form rows a record should contribute: its timestamps in
order, each paired with its fields in order. -/
def longRowsSpec (t : TimeSeries) : List LongRow :=
  ((parsedIndex t).zip (deletedPoints t)).flatMap
    (fun p => ((fieldsMinusTsL t.fields).zip p.2).map
      (fun q => (p.1, t.ric, q.1, q.2)))

/-- The warning text emitted for one failing instrument. -/
def perInstrumentWarning (t : TimeSeries) : String :=
  "Error with " ++ instrumentScopedMessage t.ric (t.errorMessage.getD "")

/-- The combined diagnostic string of `get_timeseries`: the
instrument-scoped messages of the failing records in order, each entry
followed by the separator `' | '`. -/
def combinedDiagnostics : List TimeSeries → String
  | [] => ""
  | t :: rest =>
    instrumentScopedMessage t.ric (t.errorMessage.getD "") ++ " | " ++
      combinedDiagnostics rest

instance : Inhabited TimeSeries := ⟨⟨"", "", none, [], []⟩⟩

instance : Inhabited Datetime64 := ⟨⟨""⟩⟩

/-! ### Concrete response records for the closed statements -/

/-- A well-formed ok record: two data fields, two rows. -/
def wrecA : TimeSeries :=
  { ric := "AAA.O", statusCode := "OK", errorMessage := none,
    fields := ["TIMESTAMP", "OPEN", "CLOSE"],
    dataPoints := [["2020-01-01", "1.0", "2.0"], ["2020-01-02", "3.0", "4.0"]] }

/-- A second well-formed ok record with the same fields. -/
def wrecB : TimeSeries :=
  { ric := "BBB.O", statusCode := "OK", errorMessage := none,
    fields := ["TIMESTAMP", "OPEN", "CLOSE"],
    dataPoints := [["2020-01-01", "5.0", "6.0"], ["2020-01-02", "7.0", "8.0"]] }

/-- A failing record (`statusCode = 'Error'`) with a
`Description`-bearing message. -/
def wrecErr : TimeSeries :=
  { ric := "CCC.O", statusCode := "Error",
    errorMessage := some "code 500. Description: no data",
    fields := [], dataPoints := [] }

/-- A second failing record. -/
def wrecErr2 : TimeSeries :=
  { ric := "DDD.O", statusCode := "Error",
    errorMessage := some "code 500. Description: bad ric",
    fields := [], dataPoints := [] }

/-- An ok record whose only field is the timestamp (`F = 0`). -/
def wrecTsOnly : TimeSeries :=
  { ric := "AAA.O", statusCode := "OK", errorMessage := none,
    fields := ["TIMESTAMP"], dataPoints := [["2020-01-01"]] }

/-- An ok record with an empty `dataPoints` sequence. -/
def wrecEmpty : TimeSeries :=
  { ric := "BBB.O", statusCode := "OK", errorMessage := none,
    fields := ["TIMESTAMP", "CLOSE"], dataPoints := [] }

/-- A record whose status is the capitalisation `'ERROR'`. -/
def wrecUpper : TimeSeries :=
  { ric := "AAA.O", statusCode := "ERROR", errorMessage := some "x",
    fields := [], dataPoints := [] }

/-- Single-field ok record, timestamps 01 and 03. -/
def wrecC5A : TimeSeries :=
  { ric := "AAA.O", statusCode := "OK", errorMessage := none,
    fields := ["TIMESTAMP", "CLOSE"],
    dataPoints := [["2020-01-01", "1.5"], ["2020-01-03", "2.5"]] }

/-- Single-field ok record, timestamps 02 and 04 (disjoint from
`wrecC5A`). -/
def wrecC5B : TimeSeries :=
  { ric := "BBB.O", statusCode := "OK", errorMessage := none,
    fields := ["TIMESTAMP", "CLOSE"],
    dataPoints := [["2020-01-02", "3.5"], ["2020-01-04", "4.5"]] }

/-! ### Supporting lemmas -/

theorem oksOf_cons (t : TimeSeries) (rest : List TimeSeries) :
    oksOf (t :: rest) = if okRecord t then t :: oksOf rest else oksOf rest := by
  simp [oksOf, List.filter_cons]

theorem idxOfTs_of_mem {fs : List String} (h : "TIMESTAMP" ∈ fs) :
    ∃ i, idxOfTs fs = some i ∧ i < fs.length := by
  induction fs with
  | nil => cases h
  | cons f tl ih =>
    by_cases hf : f = "TIMESTAMP"
    · exact ⟨0, by simp [idxOfTs, hf], by simp⟩
    · have hm : "TIMESTAMP" ∈ tl := by
        cases h with
        | head => exact absurd rfl hf
        | tail _ h2 => exact h2
      obtain ⟨i, hi, hlt⟩ := ih hm
      refine ⟨i + 1, ?_, by simpa using Nat.succ_lt_succ hlt⟩
      simp [idxOfTs, hf, hi]

theorem parseColumn_ok {l : List String}
    (h : ∀ s ∈ l, validIsoDatetime s = true) :
    parseColumn l = .ok (l.map Datetime64.mk) := by
  induction l with
  | nil => rfl
  | cons s tl ih =>
    have hs : validIsoDatetime s = true := h s (by simp)
    have htl : parseColumn tl = .ok (tl.map Datetime64.mk) :=
      ih (fun x hx => h x (by simp [hx]))
    simp [parseColumn, hs, htl, Except.map]

theorem recordWf_parts {t : TimeSeries} (h : recordWf t = true) :
    t.fields.count "TIMESTAMP" = 1 ∧ t.dataPoints ≠ [] ∧
    (∀ r ∈ t.dataPoints, r.length = t.fields.length) ∧
    (∀ s ∈ rawTsColumn t, validIsoDatetime s = true) ∧
    (rawTsColumn t).Nodup := by
  simp only [recordWf, Bool.and_eq_true, beq_iff_eq, List.all_eq_true,
    decide_eq_true_eq, Bool.not_eq_true', List.isEmpty_eq_false] at h
  exact ⟨h.1.1.1.1, h.1.1.1.2, h.1.1.2, h.1.2, h.2⟩

theorem mkFrame_of_wf {t : TimeSeries} (h : recordWf t = true) :
    mkFrame t = .ok (frameOf t) := by
  obtain ⟨hcount, hne, hrect, hvalid, _⟩ := recordWf_parts h
  have hmem : "TIMESTAMP" ∈ t.fields := List.count_pos_iff.mp (by omega)
  obtain ⟨i, hidx, hilt⟩ := idxOfTs_of_mem hmem
  have hpos : tsPos t = i := by simp [tsPos, hidx]
  obtain ⟨r0, rest, hdp⟩ : ∃ r0 rest, t.dataPoints = r0 :: rest := by
    cases hdp2 : t.dataPoints with
    | nil => exact absurd hdp2 hne
    | cons a b => exact ⟨a, b, rfl⟩
  have hr0 : r0.length = t.fields.length := hrect r0 (by rw [hdp]; simp)
  have hall : rest.all (fun r => r.length == r0.length) = true := by
    rw [List.all_eq_true]
    intro r hr
    have := hrect r (by rw [hdp]; exact List.mem_cons_of_mem _ hr)
    simp [this, hr0]
  have hi0 : i < r0.length := by omega
  have hnp : npTake t.dataPoints i = .ok (rawTsColumn t, deletedPoints t) := by
    rw [hdp]
    unfold npTake
    simp only [hall, if_true, hi0, if_pos]
    rw [rawTsColumn, deletedPoints, hpos, hdp]
  have hparse : parseColumn (rawTsColumn t) = .ok (parsedIndex t) :=
    parseColumn_ok hvalid
  have hlen : (t.fields.eraseIdx i).length = ((deletedPoints t).headD []).length := by
    have h1 : (deletedPoints t).headD [] = r0.eraseIdx i := by
      rw [deletedPoints, hpos, hdp]; simp
    rw [h1, List.length_eraseIdx, List.length_eraseIdx, if_pos hilt, if_pos hi0, hr0]
  rw [mkFrame, hidx]
  dsimp only
  rw [hnp]
  dsimp only
  rw [hparse]
  dsimp only
  rw [if_pos hlen]
  rw [frameOf, fieldsMinusTsL, hidx]
  simp [hpos]

theorem get_frame_list_of_wf {d : List TimeSeries}
    (h : ∀ t ∈ d, okRecord t = true → recordWf t = true) :
    get_frame_list d =
      .ok ((oksOf d).map frameOf, (oksOf d).map TimeSeries.ric, lastFields (oksOf d)) := by
  induction d with
  | nil => rfl
  | cons t rest ih =>
    have ihr := ih (fun x hx => h x (List.mem_cons_of_mem _ hx))
    by_cases hok : (pyLower t.statusCode == "error") = true
    · have hof : okRecord t = false := by simp [okRecord, hok]
      rw [get_frame_list, if_pos hok, oksOf_cons, if_neg (by simp [hof]), ihr]
    · have hokr : okRecord t = true := by simp [okRecord, hok]
      have hwf := h t (by simp) hokr
      rw [get_frame_list, if_neg hok, mkFrame_of_wf hwf]
      dsimp only
      rw [ihr]
      dsimp only
      rw [oksOf_cons, if_pos hokr]
      cases hrest : oksOf rest with
      | nil => simp [lastFields]
      | cons a b => simp [lastFields]

theorem get_frame_list_eq_filter (d : List TimeSeries) :
    get_frame_list d = get_frame_list (oksOf d) := by
  induction d with
  | nil => rfl
  | cons t rest ih =>
    by_cases hok : (pyLower t.statusCode == "error") = true
    · have hof : okRecord t = false := by simp [okRecord, hok]
      rw [get_frame_list, if_pos hok, oksOf_cons, if_neg (by simp [hof]), ih]
    · have hokr : okRecord t = true := by simp [okRecord, hok]
      have h2 : oksOf (t :: rest) = t :: oksOf rest := by rw [oksOf_cons, if_pos hokr]
      rw [h2, get_frame_list, get_frame_list, if_neg hok, if_neg hok, ih]

theorem normalizedRowsList_eq_filter (d : List TimeSeries) :
    normalizedRowsList d = normalizedRowsList (oksOf d) := by
  induction d with
  | nil => rfl
  | cons t rest ih =>
    by_cases hok : (pyLower t.statusCode == "error") = true
    · have hof : okRecord t = false := by simp [okRecord, hok]
      rw [normalizedRowsList, if_pos hok, oksOf_cons, if_neg (by simp [hof]), ih]
    · have hokr : okRecord t = true := by simp [okRecord, hok]
      have h2 : oksOf (t :: rest) = t :: oksOf rest := by rw [oksOf_cons, if_pos hokr]
      rw [h2, normalizedRowsList, normalizedRowsList, if_neg hok, if_neg hok, ih]

theorem lastFields_of_hom {d : List TimeSeries} {fs0 : List String}
    (hne : d ≠ []) (hhom : ∀ t ∈ d, t.fields = fs0) :
    lastFields d = fieldsMinusTsL fs0 := by
  induction d with
  | nil => exact absurd rfl hne
  | cons t rest ih =>
    cases rest with
    | nil => simp [lastFields, hhom t (by simp)]
    | cons a b =>
      rw [lastFields]
      exact ih (by simp) (fun x hx => hhom x (List.mem_cons_of_mem _ hx))

theorem ccIdentical_eq {dfs : List PDFrame} (h : ccIdentical dfs = true) :
    ∀ df ∈ dfs, df.index = (dfs.headD default).index := by
  cases dfs with
  | nil => intro df hdf; cases hdf
  | cons d rest =>
    intro df hdf
    simp only [ccIdentical, List.all_eq_true, beq_iff_eq] at h
    cases hdf with
    | head => simp
    | tail _ h2 => simpa using h df h2

theorem mem_foldl_union (idxs : List (List Datetime64)) (acc : List Datetime64)
    (x : Datetime64) :
    (x ∈ idxs.foldl (fun acc i => acc ++ i.filter (fun y => !(acc.contains y))) acc ↔
      x ∈ acc ∨ ∃ l ∈ idxs, x ∈ l) := by
  induction idxs generalizing acc with
  | nil => simp
  | cons i rest ih =>
    rw [List.foldl_cons, ih]
    constructor
    · rintro (h1 | ⟨l, hl, h2⟩)
      · rcases List.mem_append.mp h1 with h2 | h2
        · exact Or.inl h2
        · exact Or.inr ⟨i, List.mem_cons_self i rest, (List.mem_filter.mp h2).1⟩
      · exact Or.inr ⟨l, List.mem_cons_of_mem i hl, h2⟩
    · rintro (h1 | ⟨l, hl, h2⟩)
      · exact Or.inl (List.mem_append.mpr (Or.inl h1))
      · rcases List.mem_cons.mp hl with rfl | hl2
        · by_cases hxa : x ∈ acc
          · exact Or.inl (List.mem_append.mpr (Or.inl hxa))
          · refine Or.inl (List.mem_append.mpr (Or.inr ?_))
            refine List.mem_filter.mpr ⟨h2, ?_⟩
            simpa using hxa
        · exact Or.inr ⟨l, hl2, h2⟩

theorem mem_seenUnion (idxs : List (List Datetime64)) (x : Datetime64) :
    x ∈ seenUnion idxs ↔ ∃ l ∈ idxs, x ∈ l := by
  rw [seenUnion, mem_foldl_union]
  simp

theorem mem_ccIndex {dfs : List PDFrame} (hne : dfs ≠ []) (x : Datetime64) :
    x ∈ ccIndex dfs ↔ ∃ df ∈ dfs, x ∈ df.index := by
  rw [ccIndex]
  by_cases hid : ccIdentical dfs = true
  · rw [if_pos hid]
    constructor
    · intro hx
      cases dfs with
      | nil => exact absurd rfl hne
      | cons d rest => exact ⟨d, by simp, by simpa using hx⟩
    · rintro ⟨df, hdf, hx⟩
      rw [ccIdentical_eq hid df hdf] at hx
      exact hx
  · rw [if_neg hid, List.mem_insertionSort, mem_seenUnion]
    simp

theorem sorted_ccIndex {dfs : List PDFrame}
    (h : ∀ df ∈ dfs, List.Sorted dtLe df.index) :
    List.Sorted dtLe (ccIndex dfs) := by
  rw [ccIndex]
  by_cases hid : ccIdentical dfs = true
  · rw [if_pos hid]
    cases dfs with
    | nil => exact List.sorted_nil
    | cons d rest => exact h d (by simp)
  · rw [if_neg hid]
    exact List.sorted_insertionSort dtLe _

theorem concatOuter_of_nodup {dfs : List PDFrame} (hne : dfs ≠ [])
    (hnd : ∀ df ∈ dfs, df.index.Nodup) :
    concatOuter dfs =
      .ok { columns := dfs.flatMap (·.columns), colAxisName := none, colNames := [],
            indexName := commonIndexName dfs, index := ccIndex dfs,
            cells := ccCells dfs } := by
  cases dfs with
  | nil => exact absurd rfl hne
  | cons d rest =>
    rw [concatOuter]
    rw [if_neg]
    rintro ⟨_, df, hdf, hnd2⟩
    exact hnd2 (hnd df hdf)

theorem rowFor_of_not_mem {df : PDFrame} {t : Datetime64} (h : t ∉ df.index) :
    rowFor df t = List.replicate df.columns.length none := by
  rw [rowFor]
  have hf : df.index.findIdx? (fun x => x == t) = none := by
    rw [List.findIdx?_eq_none_iff]
    intro x hx
    simp only [beq_eq_false_iff_ne, ne_eq]
    rintro rfl
    exact h hx
  rw [hf]

theorem rowFor_length {df : PDFrame} (t : Datetime64) {n : Nat}
    (hone : df.columns.length = n)
    (hrows : ∀ r ∈ df.cells, r.length = n)
    (hlen : df.cells.length = df.index.length) :
    (rowFor df t).length = n := by
  rw [rowFor]
  cases hf : df.index.findIdx? (fun x => x == t) with
  | none => simp [hone]
  | some k =>
    have hk : k < df.index.length :=
      (List.findIdx?_eq_some_iff_findIdx_eq.mp hf).1
    have hkc : k < df.cells.length := by omega
    have hmem : df.cells.getD k [] ∈ df.cells := by
      rw [List.getD_eq_getElem?_getD, List.getElem?_eq_getElem hkc]
      exact List.getElem_mem hkc
    simp only [List.length_map]
    exact hrows _ hmem

theorem getD_map_lt {α β : Type} (f : α → β) (l : List α) (i : Nat)
    (h : i < l.length) (d : β) (d2 : α) :
    (l.map f).getD i d = f (l.getD i d2) := by
  rw [List.getD_eq_getElem?_getD, List.getD_eq_getElem?_getD,
    List.getElem?_eq_getElem (by simpa using h), List.getElem?_eq_getElem h]
  simp

theorem flatMap_singleton_getD {α β : Type} (l : List α) (f : α → List β)
    (h : ∀ x ∈ l, (f x).length = 1) (j : Nat) (hj : j < l.length) (d : β)
    (d2 : α) :
    (l.flatMap f).getD j d = (f (l.getD j d2)).getD 0 d := by
  induction l generalizing j with
  | nil => cases hj
  | cons a tl ih =>
    obtain ⟨b, hb⟩ := List.length_eq_one.mp (h a (by simp))
    cases j with
    | zero => simp [hb]
    | succ k =>
      have hrec := ih (fun x hx => h x (by simp [hx])) k
        (by simpa using Nat.lt_of_succ_lt_succ hj)
      simp only [List.flatMap_cons, hb]
      simpa using hrec

theorem collectErrorMessages_of_msgs {errs : List TimeSeries}
    (h : ∀ t ∈ errs, t.errorMessage ≠ none) :
    collectErrorMessages errs =
      (errs.map perInstrumentWarning, .ok (combinedDiagnostics errs)) := by
  induction errs with
  | nil => rfl
  | cons t rest ih =>
    obtain ⟨m, hm⟩ : ∃ m, t.errorMessage = some m := by
      cases hc : t.errorMessage with
      | none => exact absurd hc (h t (by simp))
      | some m => exact ⟨m, rfl⟩
    rw [collectErrorMessages, hm, ih (fun x hx => h x (by simp [hx]))]
    simp [perInstrumentWarning, combinedDiagnostics, hm, Except.map]

theorem tsStatusErrors_of_ok {d : List TimeSeries}
    (hall : ∀ t ∈ d, okRecord t = true) : tsStatusErrors d = [] := by
  rw [tsStatusErrors, List.filter_eq_nil_iff]
  intro t ht
  have hok := hall t ht
  intro hbe
  rw [beq_iff_eq] at hbe
  rw [okRecord, hbe] at hok
  exact absurd hok (by decide)

/-- C1: when the `timeseriesData` list is non-empty and every record has
`statusCode = 'Error'` (the wire encoding of the ERROR status), the
response phase of `get_timeseries` raises the fatal `EikonError`
carrying the combined per-instrument diagnostic string (entries
separated by `' | '`), and returns no table of any kind — the outcome is
the raised error, for either value of `normalize`. -/
theorem C1_all_error_raises (d : List TimeSeries) (normalize : Bool)
    (_hne : d ≠ [])
    (hall : ∀ t ∈ d, t.statusCode = "Error")
    (hmsg : ∀ t ∈ d, t.errorMessage ≠ none) :
    (get_timeseries_post ⟨d⟩ normalize).2 =
      .error (.eikon "Error" (combinedDiagnostics d)) := by
  have hfilt : tsStatusErrors d = d := by
    rw [tsStatusErrors, List.filter_eq_self]
    intro t ht
    simp [hall t ht]
  rw [get_timeseries_post]
  dsimp only
  rw [hfilt, collectErrorMessages_of_msgs hmsg]
  dsimp only
  rw [if_pos rfl]

/-- C1 witness: the theorem instantiated at a concrete two-instrument
all-failed response. -/
theorem C1_all_error_raises_witness :
    ([wrecErr, wrecErr2] ≠ ([] : List TimeSeries)) ∧
    (∀ t ∈ [wrecErr, wrecErr2], t.statusCode = "Error") ∧
    (∀ t ∈ [wrecErr, wrecErr2], t.errorMessage ≠ none) ∧
    (get_timeseries_post ⟨[wrecErr, wrecErr2]⟩ false).2 =
      .error (.eikon "Error" (combinedDiagnostics [wrecErr, wrecErr2])) :=
  ⟨by decide, by decide, by decide,
   C1_all_error_raises [wrecErr, wrecErr2] false (by decide) (by decide) (by decide)⟩

/-- C10: a record is dropped from table building whenever its
`statusCode` equals `'error'` case-insensitively, but it is counted as
failed (warning / all-failed check) only when it equals the exact string
`'Error'`; hence a non-empty response whose records all carry
`'ERROR'` raises nothing, emits no warning, and builds its (nice) table
from zero records — the empty frame list. -/
theorem C10_statusCode_case_mismatch (d : List TimeSeries)
    (hne : d ≠ [])
    (hall : ∀ t ∈ d, t.statusCode = "ERROR") :
    tsStatusErrors d = [] ∧ oksOf d = [] ∧
    get_timeseries_post ⟨d⟩ false = ([], .ok (.nice (.frameList []))) := by
  have h1 : tsStatusErrors d = [] := by
    rw [tsStatusErrors, List.filter_eq_nil_iff]
    intro t ht hbe
    rw [hall t ht] at hbe
    exact absurd hbe (by decide)
  have h2 : oksOf d = [] := by
    rw [oksOf, List.filter_eq_nil_iff]
    intro t ht hok
    rw [okRecord, hall t ht] at hok
    exact absurd hok (by decide)
  have h3 : niceGetDataFrame ⟨d⟩ = .ok (.frameList []) := by
    have h4 : get_frame_list d = .ok ([], [], []) := by
      rw [get_frame_list_eq_filter]
      show get_frame_list (oksOf d) = _
      rw [h2]
      rfl
    rw [niceGetDataFrame]
    show (match get_frame_list d with
      | .error e => .error e
      | .ok (dfs, rics, flds) =>
        if rics.length = 0 ∨ flds.length = 0 then Except.ok (.frameList dfs)
        else if rics.length = 1 then
          match get_frame_1_ric_N_fields dfs (rics.headD "") with
          | .error e => .error e
          | .ok w => Except.ok (.frame w)
        else if rics.length > 1 ∧ flds.length = 1 then
          match get_frame_N_rics_1_field dfs rics (flds.headD "") with
          | .error e => .error e
          | .ok w => Except.ok (.frame w)
        else
          match get_frame_N_rics_N_fields dfs rics flds with
          | .error e => .error e
          | .ok w => Except.ok (.frame w)) = Except.ok (NiceRet.frameList [])
    rw [h4]
    rfl
  refine ⟨h1, h2, ?_⟩
  rw [get_timeseries_post]
  dsimp only
  rw [h1]
  have hc : collectErrorMessages [] = ([], .ok "") := rfl
  rw [hc]
  dsimp only
  have hlen : ¬ (([] : List TimeSeries).length = d.length) := by
    simp only [List.length_nil]
    intro h0
    exact hne (List.length_eq_zero.mp h0.symm)
  rw [if_neg hlen]
  show (match (if false then (normalizedGetDataFrame ⟨d⟩).map DFRet.long
              else (niceGetDataFrame ⟨d⟩).map DFRet.nice) with
        | .error e => (([] : List TimeSeries).map perInstrumentWarning, Except.error e)
        | .ok df =>
          if dfLen df > 0 then
            match dfFillna df with
            | .error e => (([] : List TimeSeries).map perInstrumentWarning, .error e)
            | .ok df2 => (([] : List TimeSeries).map perInstrumentWarning, .ok df2)
          else (([] : List TimeSeries).map perInstrumentWarning, .ok df)) =
      ([], .ok (.nice (.frameList [])))
  rw [if_neg (by simp), h3]
  rfl

/-- C10 witness: one record with status `'ERROR'` — no raise, no
warning, an empty build. -/
theorem C10_statusCode_case_mismatch_witness :
    ([wrecUpper] ≠ ([] : List TimeSeries)) ∧
    (∀ t ∈ [wrecUpper], t.statusCode = "ERROR") ∧
    (tsStatusErrors [wrecUpper] = [] ∧ oksOf [wrecUpper] = [] ∧
     get_timeseries_post ⟨[wrecUpper]⟩ false = ([], .ok (.nice (.frameList [])))) :=
  ⟨by decide, by decide,
   C10_statusCode_case_mismatch [wrecUpper] (by decide) (by decide)⟩

/-- C7 (code behaviour at the failing input): when the token
`Description` occurs, the reported message is the suffix from the token
with the token replaced by the instrument id; but when the token is
ABSENT, `str.find` returns `-1` and the slice keeps only the LAST
character of the message — `'no data'` collapses to `'a'` instead of
being used verbatim. -/
theorem C7_description_absent_truncates :
    instrumentScopedMessage "CCC.O" "code 500. Description: no data" =
      "CCC.O: no data" ∧
    instrumentScopedMessage "CCC.O" "no data" = "a" := by
  constructor
  · rfl
  · rfl

/-- C8 (code behaviour at the failing input): an ok record with an
empty `dataPoints` sequence makes `np.array` build a 1-d array, so the
2-d timestamp-column indexing raises `IndexError` and the whole call
fails — for both the nice and the normalized formatter — instead of
contributing zero rows. -/
theorem C8_empty_dataPoints_raises :
    (get_timeseries_post ⟨[wrecA, wrecEmpty]⟩ false).2 =
      .error (.indexError "too many indices for array") ∧
    (get_timeseries_post ⟨[wrecA, wrecEmpty]⟩ true).2 =
      .error (.indexError "too many indices for array") ∧
    mkFrame wrecEmpty = .error (.indexError "too many indices for array") := by
  refine ⟨?_, ?_, ?_⟩ <;> rfl

/-- C9 (code behaviour at the failing input): a body with `ErrorCode`
and `ErrorMessage` keys normally raises the service error carrying the
message (second and third conjuncts), but when the message splits into
more than four comma parts whose first part has no `':'`, the
best-effort status parse raises `IndexError` BEFORE the classification,
so the service error is never raised (first conjunct). -/
theorem C9_status_parse_blocks_classification :
    check_server_error (.jobj [("ErrorCode", "500"), ("ErrorMessage", "a,b,c,d,e")]) =
      .error (.indexError "list index out of range") ∧
    check_server_error (.jobj [("ErrorCode", "500"),
        ("ErrorMessage", "Status: 400,Bad Request,HTTP/1.1,content,headers")]) =
      .error (.httpError "Status: 400,Bad Request,HTTP/1.1,content,headers") ∧
    check_server_error (.jobj [("ErrorCode", "500"),
        ("ErrorMessage", "Requested datapoint was not found")]) =
      .error (.httpError "Requested datapoint was not found") := by
  refine ⟨?_, ?_, ?_⟩ <;> rfl

theorem parsedIndex_nodup {t : TimeSeries} (h : recordWf t = true) :
    (parsedIndex t).Nodup := by
  obtain ⟨_, _, _, _, hnd⟩ := recordWf_parts h
  exact hnd.map (fun a b hab => by
    have := congrArg Datetime64.val hab
    simpa using this)

theorem renameFrames_parts (dfs : List PDFrame) (rics : List String) (f0 : String)
    (hlen : dfs.length = rics.length) :
    (renameFrames dfs rics f0).length = dfs.length ∧
    (∀ j : Nat,
      ((renameFrames dfs rics f0).getD j default).index = (dfs.getD j default).index ∧
      ((renameFrames dfs rics f0).getD j default).cells = (dfs.getD j default).cells ∧
      ((renameFrames dfs rics f0).getD j default).columns.length =
        (dfs.getD j default).columns.length) ∧
    (∀ df2 ∈ renameFrames dfs rics f0, ∃ df ∈ dfs,
      df2.index = df.index ∧ df2.cells = df.cells ∧ df2.indexName = df.indexName ∧
      df2.columns.length = df.columns.length) ∧
    (∀ df ∈ dfs, ∃ df2 ∈ renameFrames dfs rics f0, df2.index = df.index) := by
  induction dfs generalizing rics with
  | nil =>
    refine ⟨by simp [renameFrames], fun j => by simp [renameFrames], by simp [renameFrames],
      by simp⟩
  | cons df dtl ih =>
    cases rics with
    | nil => cases hlen
    | cons r rtl =>
      have hlen2 : dtl.length = rtl.length := by simpa using hlen
      obtain ⟨ih1, ih2, ih3, ih4⟩ := ih rtl hlen2
      have hcons : renameFrames (df :: dtl) (r :: rtl) f0 =
          (let cols := df.columns.map
            (fun c => if c == ColLabel.single f0 then ColLabel.single r else c)
           { df with columns := cols }) :: renameFrames dtl rtl f0 := rfl
      refine ⟨by rw [hcons]; simpa using ih1, ?_, ?_, ?_⟩
      · intro j
        cases j with
        | zero =>
          rw [hcons]
          exact ⟨rfl, rfl, by simp⟩
        | succ k =>
          rw [hcons]
          simpa using ih2 k
      · intro df2 hdf2
        rw [hcons] at hdf2
        rcases List.mem_cons.mp hdf2 with heq | hmem
        · exact ⟨df, by simp, by rw [heq], by rw [heq], by rw [heq], by rw [heq]; simp⟩
        · obtain ⟨dfo, hdfo, h1, h2, h3, h4⟩ := ih3 df2 hmem
          exact ⟨dfo, List.mem_cons_of_mem _ hdfo, h1, h2, h3, h4⟩
      · intro dfo hdfo
        rcases List.mem_cons.mp hdfo with heq | hmem
        · refine ⟨_, by rw [hcons]; exact List.mem_cons_self _ _, by rw [heq]⟩
        · obtain ⟨df2, hdf2, h1⟩ := ih4 dfo hmem
          exact ⟨df2, by rw [hcons]; exact List.mem_cons_of_mem _ hdf2, h1⟩

theorem renameFrames_columns {dfs : List PDFrame} {rics : List String} {f0 : String}
    (hlen : dfs.length = rics.length)
    (hcols : ∀ df ∈ dfs, df.columns = [ColLabel.single f0]) :
    (renameFrames dfs rics f0).flatMap (·.columns) = rics.map ColLabel.single := by
  induction dfs generalizing rics with
  | nil =>
    cases rics with
    | nil => rfl
    | cons r rtl => cases hlen
  | cons df dtl ih =>
    cases rics with
    | nil => cases hlen
    | cons r rtl =>
      have hlen2 : dtl.length = rtl.length := by simpa using hlen
      have hdf := hcols df (by simp)
      have hrec := ih hlen2 (fun x hx => hcols x (by simp [hx]))
      have hcons : renameFrames (df :: dtl) (r :: rtl) f0 =
          (let cols := df.columns.map
            (fun c => if c == ColLabel.single f0 then ColLabel.single r else c)
           { df with columns := cols }) :: renameFrames dtl rtl f0 := rfl
      rw [hcons, List.flatMap_cons]
      dsimp only
      rw [hdf, hrec]
      simp

theorem setAllPairColumns_spec {dfs : List PDFrame} {rics : List String}
    {flds : List String} (hlen : dfs.length = rics.length)
    (hcols : ∀ df ∈ dfs, df.columns.length = flds.length) :
    ∃ dfs2, setAllPairColumns dfs rics flds = .ok dfs2 ∧
      dfs2.flatMap (·.columns) = rics.flatMap (fun r => flds.map (ColLabel.pair r)) ∧
      (∀ df2 ∈ dfs2, ∃ df ∈ dfs, df2.index = df.index ∧ df2.cells = df.cells ∧
        df2.indexName = df.indexName) ∧
      dfs2.length = dfs.length := by
  induction dfs generalizing rics with
  | nil =>
    cases rics with
    | nil => exact ⟨[], rfl, by simp, by simp, rfl⟩
    | cons r rtl => cases hlen
  | cons df dtl ih =>
    cases rics with
    | nil => cases hlen
    | cons r rtl =>
      have hlen2 : dtl.length = rtl.length := by simpa using hlen
      obtain ⟨dfs2, hok, hflat, hmem, hl⟩ := ih hlen2 (fun x hx => hcols x (by simp [hx]))
      have hset : setPairColumns df r flds =
          .ok { df with columns := flds.map (fun f => ColLabel.pair r f) } := by
        rw [setPairColumns, if_pos (hcols df (by simp)).symm]
      refine ⟨{ df with columns := flds.map (fun f => ColLabel.pair r f) } :: dfs2, ?_, ?_, ?_, ?_⟩
      · rw [setAllPairColumns, hset]
        dsimp only
        rw [hok]
      · rw [List.flatMap_cons, List.flatMap_cons, hflat]
      · intro df2 hdf2
        rcases List.mem_cons.mp hdf2 with heq | hm
        · exact ⟨df, by simp, by rw [heq], by rw [heq], by rw [heq]⟩
        · obtain ⟨dfo, hdfo, h1, h2, h3⟩ := hmem df2 hm
          exact ⟨dfo, List.mem_cons_of_mem _ hdfo, h1, h2, h3⟩
      · simpa using hl

theorem niceGetDataFrame_ok {d : List TimeSeries} {dfs : List PDFrame}
    {rics flds : List String}
    (hg : get_frame_list d = .ok (dfs, rics, flds)) :
    niceGetDataFrame ⟨d⟩ =
      if rics.length = 0 ∨ flds.length = 0 then .ok (.frameList dfs)
      else if rics.length = 1 then
        match get_frame_1_ric_N_fields dfs (rics.headD "") with
        | .error e => .error e
        | .ok w => .ok (.frame w)
      else if rics.length > 1 ∧ flds.length = 1 then
        match get_frame_N_rics_1_field dfs rics (flds.headD "") with
        | .error e => .error e
        | .ok w => .ok (.frame w)
      else
        match get_frame_N_rics_N_fields dfs rics flds with
        | .error e => .error e
        | .ok w => .ok (.frame w) := by
  rw [niceGetDataFrame, hg]

theorem get_frame_1_ok {dfs : List PDFrame} {w : WideFrame}
    (h : concatOuter dfs = .ok w) (ric : String) :
    get_frame_1_ric_N_fields dfs ric = .ok { w with colAxisName := some ric } := by
  rw [get_frame_1_ric_N_fields, h]

theorem get_frame_N1_ok {dfs : List PDFrame} {rics : List String} {f0 : String}
    {w : WideFrame} (h : concatOuter (renameFrames dfs rics f0) = .ok w) :
    get_frame_N_rics_1_field dfs rics f0 = .ok { w with colAxisName := some f0 } := by
  rw [get_frame_N_rics_1_field, h]

theorem get_frame_NN_ok {dfs dfs2 : List PDFrame} {rics flds : List String}
    {w : WideFrame} (h1 : setAllPairColumns dfs rics flds = .ok dfs2)
    (h2 : concatOuter dfs2 = .ok w) :
    get_frame_N_rics_N_fields dfs rics flds =
      .ok { w with colNames := ["Security", "Field"] } := by
  rw [get_frame_N_rics_N_fields, h1]
  dsimp only
  rw [h2]

theorem flatMap_map_ric (d : List TimeSeries) (flds : List String) :
    (d.map TimeSeries.ric).flatMap (fun r => flds.map (ColLabel.pair r)) =
      d.flatMap (fun t => flds.map (fun f => ColLabel.pair t.ric f)) := by
  induction d with
  | nil => rfl
  | cons t dtl ih => rw [List.map_cons, List.flatMap_cons, List.flatMap_cons, ih]

theorem niceShape_spec (d : List TimeSeries) (fs0 : List String)
    (hall : ∀ t ∈ d, okRecord t = true)
    (hwf : ∀ t ∈ d, recordWf t = true)
    (hhom : ∀ t ∈ d, t.fields = fs0) :
    (d = [] → niceGetDataFrame ⟨d⟩ = .ok (.frameList [])) ∧
    (d ≠ [] → (fieldsMinusTsL fs0).length = 0 →
      niceGetDataFrame ⟨d⟩ = .ok (.frameList (d.map frameOf))) ∧
    (∀ t0, d = [t0] → (fieldsMinusTsL fs0).length ≥ 1 →
      ∃ w, niceGetDataFrame ⟨d⟩ = .ok (.frame w) ∧
        w.columns = (fieldsMinusTsL fs0).map ColLabel.single ∧
        w.colAxisName = some t0.ric ∧
        w.index = parsedIndex t0) ∧
    (d.length > 1 → (fieldsMinusTsL fs0).length = 1 →
      ∃ w, niceGetDataFrame ⟨d⟩ = .ok (.frame w) ∧
        w.columns = d.map (fun t => ColLabel.single t.ric) ∧
        w.colAxisName = some ((fieldsMinusTsL fs0).headD "") ∧
        w.index = ccIndex (renameFrames (d.map frameOf) (d.map TimeSeries.ric)
          ((fieldsMinusTsL fs0).headD "")) ∧
        w.cells = ccCells (renameFrames (d.map frameOf) (d.map TimeSeries.ric)
          ((fieldsMinusTsL fs0).headD ""))) ∧
    (d.length > 1 → (fieldsMinusTsL fs0).length > 1 →
      ∃ w, niceGetDataFrame ⟨d⟩ = .ok (.frame w) ∧
        w.columns = d.flatMap (fun t =>
          (fieldsMinusTsL fs0).map (fun f => ColLabel.pair t.ric f)) ∧
        w.colNames = ["Security", "Field"]) := by
  have hoks : oksOf d = d := by
    rw [oksOf, List.filter_eq_self]
    exact hall
  have hg : get_frame_list d =
      .ok (d.map frameOf, d.map TimeSeries.ric, lastFields d) := by
    have h0 := get_frame_list_of_wf (d := d) (fun t ht _ => hwf t ht)
    rwa [hoks] at h0
  refine ⟨?_, ?_, ?_, ?_, ?_⟩
  · rintro rfl
    rfl
  · intro hne hF0
    have hlast := lastFields_of_hom hne hhom
    rw [niceGetDataFrame_ok hg, hlast, if_pos (Or.inr hF0)]
  · rintro t0 rfl hF1
    have hlast := lastFields_of_hom (by simp) hhom
    have hwf0 : recordWf t0 = true := hwf t0 (by simp)
    have hcc : concatOuter [frameOf t0] =
        .ok { columns := [frameOf t0].flatMap (·.columns), colAxisName := none,
              colNames := [], indexName := commonIndexName [frameOf t0],
              index := ccIndex [frameOf t0], cells := ccCells [frameOf t0] } :=
      concatOuter_of_nodup (by simp)
        (fun df hdf => by
          rw [List.mem_singleton.mp hdf]
          exact parsedIndex_nodup hwf0)
    have hmapf : List.map frameOf [t0] = [frameOf t0] := rfl
    have hmapr : List.map TimeSeries.ric [t0] = [t0.ric] := rfl
    rw [niceGetDataFrame_ok hg, hlast, hmapf, hmapr]
    have hc1 : ¬ (([t0.ric] : List String).length = 0 ∨
        (fieldsMinusTsL fs0).length = 0) := by
      rintro (h | h)
      · simp at h
      · omega
    rw [if_neg hc1, if_pos (by simp)]
    rw [show ([t0.ric] : List String).headD "" = t0.ric from rfl]
    rw [get_frame_1_ok hcc t0.ric]
    refine ⟨_, rfl, ?_, rfl, rfl⟩
    show [frameOf t0].flatMap (·.columns) = (fieldsMinusTsL fs0).map ColLabel.single
    rw [List.flatMap_cons]
    simp [frameOf, fieldsMinusTsL, hhom t0 (by simp)]
  · intro hR hF1
    have hne : d ≠ [] := by
      intro h0
      rw [h0] at hR
      exact absurd hR (by simp)
    have hlast := lastFields_of_hom hne hhom
    obtain ⟨f1, hf1⟩ := List.length_eq_one.mp hF1
    have hheadf : (fieldsMinusTsL fs0).headD "" = f1 := by rw [hf1]; rfl
    have hcolsF : ∀ df ∈ d.map frameOf, df.columns = [ColLabel.single f1] := by
      intro df hdf
      obtain ⟨t, ht, rfl⟩ := List.mem_map.mp hdf
      show ((fieldsMinusTsL t.fields).map ColLabel.single) = _
      rw [hhom t ht, hf1]
      rfl
    have hlen : (d.map frameOf).length = (d.map TimeSeries.ric).length := by simp
    obtain ⟨rlen, rget, rmem, _⟩ := renameFrames_parts (d.map frameOf)
      (d.map TimeSeries.ric) f1 hlen
    have hrlen2 : (renameFrames (d.map frameOf) (d.map TimeSeries.ric) f1).length
        = d.length := by
      rw [rlen]
      simp
    have hrne : renameFrames (d.map frameOf) (d.map TimeSeries.ric) f1 ≠ [] := by
      intro h0
      rw [h0] at hrlen2
      exact hne (List.length_eq_zero.mp hrlen2.symm)
    have hrnd : ∀ df2 ∈ renameFrames (d.map frameOf) (d.map TimeSeries.ric) f1,
        df2.index.Nodup := by
      intro df2 hdf2
      obtain ⟨df, hdf, hidx, _, _, _⟩ := rmem df2 hdf2
      obtain ⟨t, ht, rfl⟩ := List.mem_map.mp hdf
      rw [hidx]
      exact parsedIndex_nodup (hwf t ht)
    have hcc := concatOuter_of_nodup hrne hrnd
    rw [niceGetDataFrame_ok hg, hlast]
    have hc1 : ¬ ((d.map TimeSeries.ric).length = 0 ∨
        (fieldsMinusTsL fs0).length = 0) := by
      rintro (h | h)
      · rw [List.length_map] at h
        exact hne (List.length_eq_zero.mp h)
      · omega
    have hc2 : ¬ (d.map TimeSeries.ric).length = 1 := by
      rw [List.length_map]
      omega
    have hc3 : (d.map TimeSeries.ric).length > 1 ∧ (fieldsMinusTsL fs0).length = 1 := by
      refine ⟨?_, hF1⟩
      rw [List.length_map]
      omega
    rw [if_neg hc1, if_neg hc2, if_pos hc3, hheadf, get_frame_N1_ok hcc]
    refine ⟨_, rfl, ?_, rfl, rfl, rfl⟩
    show (renameFrames (d.map frameOf) (d.map TimeSeries.ric) f1).flatMap (·.columns) = _
    rw [renameFrames_columns hlen hcolsF, List.map_map]
    rfl
  · intro hR hFg
    have hne : d ≠ [] := by
      intro h0
      rw [h0] at hR
      exact absurd hR (by simp)
    have hlast := lastFields_of_hom hne hhom
    have hcolsF : ∀ df ∈ d.map frameOf,
        df.columns.length = (fieldsMinusTsL fs0).length := by
      intro df hdf
      obtain ⟨t, ht, rfl⟩ := List.mem_map.mp hdf
      show ((fieldsMinusTsL t.fields).map ColLabel.single).length = _
      rw [hhom t ht]
      simp
    have hlen : (d.map frameOf).length = (d.map TimeSeries.ric).length := by simp
    obtain ⟨dfs2, hset, hflat, hmem2, hlen2⟩ := setAllPairColumns_spec hlen hcolsF
    have hne2 : dfs2 ≠ [] := by
      intro h0
      rw [h0] at hlen2
      have h5 : (0 : Nat) = d.length := by simpa using hlen2
      exact hne (List.length_eq_zero.mp h5.symm)
    have hnd2 : ∀ df2 ∈ dfs2, df2.index.Nodup := by
      intro df2 hdf2
      obtain ⟨df, hdf, hidx, _, _⟩ := hmem2 df2 hdf2
      obtain ⟨t, ht, rfl⟩ := List.mem_map.mp hdf
      rw [hidx]
      exact parsedIndex_nodup (hwf t ht)
    have hcc := concatOuter_of_nodup hne2 hnd2
    rw [niceGetDataFrame_ok hg, hlast]
    have hc1 : ¬ ((d.map TimeSeries.ric).length = 0 ∨
        (fieldsMinusTsL fs0).length = 0) := by
      rintro (h | h)
      · rw [List.length_map] at h
        exact hne (List.length_eq_zero.mp h)
      · omega
    have hc2 : ¬ (d.map TimeSeries.ric).length = 1 := by
      rw [List.length_map]
      omega
    have hc3 : ¬ ((d.map TimeSeries.ric).length > 1 ∧
        (fieldsMinusTsL fs0).length = 1) := by
      rintro ⟨_, h1⟩
      omega
    rw [if_neg hc1, if_neg hc2, if_neg hc3, get_frame_NN_ok hset hcc]
    refine ⟨_, rfl, ?_, rfl⟩
    show dfs2.flatMap (·.columns) = _
    rw [hflat, flatMap_map_ric]

theorem get_timeseries_post_frame {d : List TimeSeries} {w : WideFrame}
    (hmsgs : ∀ t ∈ tsStatusErrors d, t.errorMessage ≠ none)
    (hnall : ¬ (tsStatusErrors d).length = d.length)
    (hnice : niceGetDataFrame ⟨d⟩ = .ok (.frame w)) :
    get_timeseries_post ⟨d⟩ false =
      ((tsStatusErrors d).map perInstrumentWarning, .ok (.nice (.frame w))) := by
  rw [get_timeseries_post]
  dsimp only
  rw [collectErrorMessages_of_msgs hmsgs]
  dsimp only
  rw [if_neg hnall]
  rw [hnice]
  dsimp only [Except.map]
  rw [if_neg Bool.false_ne_true]
  dsimp only
  by_cases hlen : dfLen (.nice (.frame w)) > 0
  · rw [if_pos hlen]
    rfl
  · rw [if_neg hlen]

theorem get_timeseries_post_frameList_crash {d : List TimeSeries}
    {dfs : List PDFrame}
    (hmsgs : ∀ t ∈ tsStatusErrors d, t.errorMessage ≠ none)
    (hnall : ¬ (tsStatusErrors d).length = d.length)
    (hnice : niceGetDataFrame ⟨d⟩ = .ok (.frameList dfs)) (hne : dfs ≠ []) :
    (get_timeseries_post ⟨d⟩ false).2 =
      .error (.attributeError "list object has no attribute fillna") := by
  rw [get_timeseries_post]
  dsimp only
  rw [collectErrorMessages_of_msgs hmsgs]
  dsimp only
  rw [if_neg hnall]
  rw [hnice]
  dsimp only [Except.map]
  rw [if_neg Bool.false_ne_true]
  dsimp only
  rw [if_pos (by
    show dfs.length > 0
    exact List.length_pos.mpr hne)]
  rfl

/-- C2 counterexample: an all-ok input whose single record carries only
the timestamp field (`R = 1`, `F = 0`).  The claim says the result is an
empty table (no rows/columns) and not an error; in fact the formatter
returns the bare list of one frame that still has a ROW (its index is
the one timestamp), and the surrounding call then errors on
`list.fillna`. -/
theorem C2_F0_counterexample :
    niceGetDataFrame ⟨[wrecTsOnly]⟩ =
      .ok (.frameList [(⟨[], some "Date", [⟨"2020-01-01"⟩], [[]]⟩ : PDFrame)]) ∧
    (get_timeseries_post ⟨[wrecTsOnly]⟩ false).2 =
      .error (.attributeError "list object has no attribute fillna") := by
  constructor
  · rfl
  · rfl

/-- C2 (amended): for all-ok, well-formed, field-homogeneous input with
distinct rics and `normalize` false, the output shape is a deterministic
function of the record count `R` and the popped field count `F`:
`R = 0` gives the empty frame list; `F = 0` with `R ≥ 1` gives the bare
list of the `R` column-less (but row-bearing) per-instrument frames and
the call then fails on `fillna` — NOT an empty table; `R = 1, F ≥ 1`
gives the one-instrument/many-fields frame (columns = field names,
column-axis label = the ric); `R > 1, F = 1` gives the
many-instruments/one-field frame (columns = rics, label = the field);
`R > 1, F > 1` gives the two-level `(Security, Field)` columns. -/
theorem C2_shape_selection (d : List TimeSeries) (fs0 : List String)
    (hall : ∀ t ∈ d, okRecord t = true)
    (hwf : ∀ t ∈ d, recordWf t = true)
    (hhom : ∀ t ∈ d, t.fields = fs0)
    (_hdist : (d.map TimeSeries.ric).Nodup) :
    (d = [] → niceGetDataFrame ⟨d⟩ = .ok (.frameList [])) ∧
    (d ≠ [] → (fieldsMinusTsL fs0).length = 0 →
      niceGetDataFrame ⟨d⟩ = .ok (.frameList (d.map frameOf)) ∧
      (∀ df ∈ d.map frameOf, df.columns = []) ∧
      (get_timeseries_post ⟨d⟩ false).2 =
        .error (.attributeError "list object has no attribute fillna")) ∧
    (∀ t0, d = [t0] → (fieldsMinusTsL fs0).length ≥ 1 →
      ∃ w, niceGetDataFrame ⟨d⟩ = .ok (.frame w) ∧
        w.columns = (fieldsMinusTsL fs0).map ColLabel.single ∧
        w.colAxisName = some t0.ric) ∧
    (d.length > 1 → (fieldsMinusTsL fs0).length = 1 →
      ∃ w, niceGetDataFrame ⟨d⟩ = .ok (.frame w) ∧
        w.columns = d.map (fun t => ColLabel.single t.ric) ∧
        w.colAxisName = some ((fieldsMinusTsL fs0).headD "")) ∧
    (d.length > 1 → (fieldsMinusTsL fs0).length > 1 →
      ∃ w, niceGetDataFrame ⟨d⟩ = .ok (.frame w) ∧
        w.columns = d.flatMap (fun t =>
          (fieldsMinusTsL fs0).map (fun f => ColLabel.pair t.ric f)) ∧
        w.colNames = ["Security", "Field"]) := by
  obtain ⟨b1, b2, b3, b4, b5⟩ := niceShape_spec d fs0 hall hwf hhom
  refine ⟨b1, ?_, ?_, ?_, b5⟩
  · intro hne hF0
    have hempty : fieldsMinusTsL fs0 = [] := List.length_eq_zero.mp hF0
    refine ⟨b2 hne hF0, ?_, ?_⟩
    · intro df hdf
      obtain ⟨t, ht, rfl⟩ := List.mem_map.mp hdf
      show (fieldsMinusTsL t.fields).map ColLabel.single = []
      rw [hhom t ht, hempty]
      rfl
    · have herrs : tsStatusErrors d = [] := tsStatusErrors_of_ok hall
      refine get_timeseries_post_frameList_crash ?_ ?_ (b2 hne hF0) ?_
      · rw [herrs]
        intro t ht
        cases ht
      · rw [herrs]
        simp only [List.length_nil]
        intro h0
        exact hne (List.length_eq_zero.mp h0.symm)
      · intro h0
        exact hne (by simpa using congrArg List.length h0)
  · intro t0 h1 h2
    obtain ⟨w, hw, hcol, hax, _⟩ := b3 t0 h1 h2
    exact ⟨w, hw, hcol, hax⟩
  · intro h1 h2
    obtain ⟨w, hw, hcol, hax, _, _⟩ := b4 h1 h2
    exact ⟨w, hw, hcol, hax⟩

/-- C2 witness: the amended theorem instantiated at a concrete two-ric,
two-field all-ok response, landing in the two-level-columns branch. -/
theorem C2_shape_selection_witness :
    (∀ t ∈ [wrecA, wrecB], okRecord t = true) ∧
    (∀ t ∈ [wrecA, wrecB], recordWf t = true) ∧
    (∀ t ∈ [wrecA, wrecB], t.fields = ["TIMESTAMP", "OPEN", "CLOSE"]) ∧
    ([wrecA, wrecB].map TimeSeries.ric).Nodup ∧
    (([wrecA, wrecB] : List TimeSeries).length > 1 →
      (fieldsMinusTsL ["TIMESTAMP", "OPEN", "CLOSE"]).length > 1 →
      ∃ w, niceGetDataFrame ⟨[wrecA, wrecB]⟩ = .ok (.frame w) ∧
        w.columns = [wrecA, wrecB].flatMap (fun t =>
          (fieldsMinusTsL ["TIMESTAMP", "OPEN", "CLOSE"]).map
            (fun f => ColLabel.pair t.ric f)) ∧
        w.colNames = ["Security", "Field"]) :=
  ⟨by decide, by decide, by decide, by decide,
   (C2_shape_selection [wrecA, wrecB] ["TIMESTAMP", "OPEN", "CLOSE"]
     (by decide) (by decide) (by decide) (by decide)).2.2.2.2⟩

theorem okRecord_error_false {t : TimeSeries} (h : t.statusCode = "Error") :
    okRecord t = false := by
  rw [okRecord, h]
  decide

theorem mem_tsStatusErrors {d : List TimeSeries} {t : TimeSeries} :
    t ∈ tsStatusErrors d ↔ t ∈ d ∧ t.statusCode = "Error" := by
  simp [tsStatusErrors, List.mem_filter]

theorem niceGetDataFrame_eq_filter (d : List TimeSeries) :
    niceGetDataFrame ⟨d⟩ = niceGetDataFrame ⟨oksOf d⟩ := by
  rw [niceGetDataFrame, niceGetDataFrame, get_frame_list_eq_filter d]

/-- C3: when some but not all records fail (`'Error'`), the call emits
exactly one warning per failing instrument — `'Error with '` followed by
the instrument-scoped message, in order — returns a valid wide table
without raising, and the table is built from the ok records only (the
formatter output is unchanged when the failing records are deleted from
the input). -/
theorem C3_partial_failure (d : List TimeSeries) (fs0 : List String)
    (hsplit : ∀ t ∈ d, t.statusCode = "Error" ∨
      (okRecord t = true ∧ recordWf t = true ∧ t.fields = fs0))
    (_herr_ne : tsStatusErrors d ≠ [])
    (hok_ne : oksOf d ≠ [])
    (hmsgs : ∀ t ∈ d, t.statusCode = "Error" → t.errorMessage ≠ none)
    (hF : (fieldsMinusTsL fs0).length ≥ 1) :
    (∃ w, get_timeseries_post ⟨d⟩ false =
      ((tsStatusErrors d).map perInstrumentWarning, .ok (.nice (.frame w)))) ∧
    niceGetDataFrame ⟨d⟩ = niceGetDataFrame ⟨oksOf d⟩ := by
  have hmsgs2 : ∀ t ∈ tsStatusErrors d, t.errorMessage ≠ none := by
    intro t ht
    obtain ⟨h1, h2⟩ := mem_tsStatusErrors.mp ht
    exact hmsgs t h1 h2
  have hnall : ¬ (tsStatusErrors d).length = d.length := by
    obtain ⟨t0, ht0⟩ : ∃ t0, t0 ∈ oksOf d := by
      cases hc : oksOf d with
      | nil => exact absurd hc hok_ne
      | cons a b => exact ⟨a, hc ▸ List.mem_cons_self a b⟩
    obtain ⟨ht0d, ht0ok⟩ := List.mem_filter.mp ht0
    have hlt : (tsStatusErrors d).length < d.length := by
      rw [tsStatusErrors]
      rw [List.length_filter_lt_length_iff_exists]
      refine ⟨t0, ht0d, ?_⟩
      intro hbe
      rw [okRecord_error_false (beq_iff_eq.mp hbe)] at ht0ok
      cases ht0ok
    omega
  have hallo : ∀ t ∈ oksOf d, okRecord t = true := by
    intro t ht
    exact (List.mem_filter.mp ht).2
  have hwfo : ∀ t ∈ oksOf d, recordWf t = true := by
    intro t ht
    obtain ⟨h1, h2⟩ := List.mem_filter.mp ht
    rcases hsplit t h1 with he | ⟨_, hw, _⟩
    · rw [okRecord_error_false he] at h2
      cases h2
    · exact hw
  have hhomo : ∀ t ∈ oksOf d, t.fields = fs0 := by
    intro t ht
    obtain ⟨h1, h2⟩ := List.mem_filter.mp ht
    rcases hsplit t h1 with he | ⟨_, _, hh⟩
    · rw [okRecord_error_false he] at h2
      cases h2
    · exact hh
  obtain ⟨_, _, b3, b4, b5⟩ := niceShape_spec (oksOf d) fs0 hallo hwfo hhomo
  have hframe : ∃ w, niceGetDataFrame ⟨d⟩ = .ok (.frame w) := by
    rw [niceGetDataFrame_eq_filter]
    rcases Nat.lt_or_ge 1 (oksOf d).length with hR | hR
    · rcases Nat.lt_or_ge 1 (fieldsMinusTsL fs0).length with hFg | hF1
      · obtain ⟨w, hw, _, _⟩ := b5 hR hFg
        exact ⟨w, hw⟩
      · have hF1e : (fieldsMinusTsL fs0).length = 1 := le_antisymm hF1 hF
        obtain ⟨w, hw, _⟩ := b4 hR hF1e
        exact ⟨w, hw⟩
    · have hR1 : (oksOf d).length = 1 :=
        le_antisymm hR (List.length_pos.mpr hok_ne)
      obtain ⟨t0, ht0⟩ := List.length_eq_one.mp hR1
      obtain ⟨w, hw, _, _, _⟩ := b3 t0 ht0 hF
      exact ⟨w, hw⟩
  obtain ⟨w, hw⟩ := hframe
  exact ⟨⟨w, get_timeseries_post_frame hmsgs2 hnall hw⟩, niceGetDataFrame_eq_filter d⟩

/-- C3 witness: two ok instruments and one failing instrument with the
scenario-C message — one warning, a valid two-ric table, no raise. -/
theorem C3_partial_failure_witness :
    (∀ t ∈ [wrecA, wrecB, wrecErr], t.statusCode = "Error" ∨
      (okRecord t = true ∧ recordWf t = true ∧
        t.fields = ["TIMESTAMP", "OPEN", "CLOSE"])) ∧
    tsStatusErrors [wrecA, wrecB, wrecErr] ≠ [] ∧
    oksOf [wrecA, wrecB, wrecErr] ≠ [] ∧
    (∀ t ∈ [wrecA, wrecB, wrecErr], t.statusCode = "Error" →
      t.errorMessage ≠ none) ∧
    (fieldsMinusTsL ["TIMESTAMP", "OPEN", "CLOSE"]).length ≥ 1 ∧
    ((∃ w, get_timeseries_post ⟨[wrecA, wrecB, wrecErr]⟩ false =
      ((tsStatusErrors [wrecA, wrecB, wrecErr]).map perInstrumentWarning,
       .ok (.nice (.frame w)))) ∧
     niceGetDataFrame ⟨[wrecA, wrecB, wrecErr]⟩ =
       niceGetDataFrame ⟨oksOf [wrecA, wrecB, wrecErr]⟩) :=
  ⟨by decide, by decide, by decide, by decide, by decide,
   C3_partial_failure [wrecA, wrecB, wrecErr] ["TIMESTAMP", "OPEN", "CLOSE"]
     (by decide) (by decide) (by decide) (by decide) (by decide)⟩

theorem idxOfTs_some_mem {fs : List String} {i : Nat} (h : idxOfTs fs = some i) :
    "TIMESTAMP" ∈ fs := by
  induction fs generalizing i with
  | nil => cases h
  | cons f tl ih =>
    rw [idxOfTs] at h
    by_cases hf : (f == "TIMESTAMP") = true
    · have hfe := beq_iff_eq.mp hf
      subst hfe
      exact List.mem_cons_self _ _
    · rw [if_neg hf] at h
      cases hc : idxOfTs tl with
      | none =>
        rw [hc] at h
        cases h
      | some k => exact List.mem_cons_of_mem f (ih hc)

theorem fieldsMinusTsL_cons_ne {f : String} {tl : List String} {i : Nat}
    (hf : ¬ (f == "TIMESTAMP") = true) (hi : idxOfTs tl = some i) :
    fieldsMinusTsL (f :: tl) = f :: fieldsMinusTsL tl := by
  rw [fieldsMinusTsL, fieldsMinusTsL, idxOfTs, if_neg hf, hi]
  rfl

theorem not_mem_fieldsMinusTs {fs : List String} (h : fs.count "TIMESTAMP" = 1) :
    "TIMESTAMP" ∉ fieldsMinusTsL fs := by
  induction fs with
  | nil => simp [fieldsMinusTsL, idxOfTs, List.eraseIdx]
  | cons f tl ih =>
    by_cases hf : (f == "TIMESTAMP") = true
    · have hfe := beq_iff_eq.mp hf
      subst hfe
      have htl : tl.count "TIMESTAMP" = 0 := by
        rw [List.count_cons] at h
        simp at h
        exact h
      have hnm : "TIMESTAMP" ∉ tl := by
        intro hm
        have := List.count_pos_iff.mpr hm
        omega
      show "TIMESTAMP" ∉ fieldsMinusTsL ("TIMESTAMP" :: tl)
      rw [fieldsMinusTsL]
      simpa [idxOfTs] using hnm
    · have htl : tl.count "TIMESTAMP" = 1 := by
        rw [List.count_cons] at h
        rw [if_neg hf] at h
        omega
      have hmem : "TIMESTAMP" ∈ tl := List.count_pos_iff.mp (by omega)
      obtain ⟨i, hi, _⟩ := idxOfTs_of_mem hmem
      rw [fieldsMinusTsL_cons_ne hf hi]
      intro hm
      rcases List.mem_cons.mp hm with he | hm2
      · exact absurd he.symm (by simpa using hf)
      · exact ih htl hm2

theorem normalized_columns {d : List TimeSeries} {lf : LongFrame}
    (h : normalizedGetDataFrame ⟨d⟩ = .ok lf) :
    lf.columns = ["Date", "Security", "Field", "Value"] := by
  rw [normalizedGetDataFrame] at h
  cases hc : normalizedRowsList d with
  | error e =>
    rw [hc] at h
    cases h
  | ok ls =>
    rw [hc] at h
    cases ls with
    | nil => cases h
    | cons a b =>
      cases h
      rfl

theorem get_frame_list_ok_ts_mem :
    ∀ (d2 : List TimeSeries) (res : List PDFrame × List String × List String),
      get_frame_list d2 = .ok res →
      ∀ t ∈ d2, okRecord t = true → "TIMESTAMP" ∈ t.fields := by
  intro d2
  induction d2 with
  | nil =>
    intro res _ t ht
    cases ht
  | cons a rest ih =>
    intro res h t ht hok
    rw [get_frame_list] at h
    by_cases hb : (pyLower a.statusCode == "error") = true
    · rw [if_pos hb] at h
      rcases List.mem_cons.mp ht with rfl | hm
      · rw [okRecord, hb] at hok
        cases hok
      · exact ih res h t hm hok
    · rw [if_neg hb] at h
      cases hma : mkFrame a with
      | error e =>
        rw [hma] at h
        cases h
      | ok df =>
        rw [hma] at h
        dsimp only at h
        cases hgr : get_frame_list rest with
        | error e =>
          rw [hgr] at h
          cases h
        | ok res2 =>
          rcases List.mem_cons.mp ht with rfl | hm
          · rw [mkFrame] at hma
            cases hidx : idxOfTs t.fields with
            | none =>
              rw [hidx] at hma
              cases hma
            | some i => exact idxOfTs_some_mem hidx
          · exact ih res2 hgr t hm hok

/-- C4: (a) table building can only succeed when every contributing
record has a `TIMESTAMP` field — a missing one fails loudly; (b) under
the wire contract the frame list succeeds, each per-instrument frame
has NO `TIMESTAMP` column, and its row index holds the timestamps as
parsed (validated) time values, not raw strings; the surviving
`unique_fields` list contains no `TIMESTAMP` either; (c) no wide output
frame has a column labelled `TIMESTAMP` (at either label level); (d)
the long-form columns are exactly Date/Security/Field/Value. -/
theorem C4_timestamp_handling (d : List TimeSeries) (fs0 : List String)
    (hwf : ∀ t ∈ oksOf d, recordWf t = true)
    (hhom : ∀ t ∈ oksOf d, t.fields = fs0)
    (hric : ∀ t ∈ oksOf d, t.ric ≠ "TIMESTAMP") :
    (∀ (d2 : List TimeSeries) (res : List PDFrame × List String × List String),
      get_frame_list d2 = .ok res →
      ∀ t ∈ d2, okRecord t = true → "TIMESTAMP" ∈ t.fields) ∧
    (get_frame_list d = .ok ((oksOf d).map frameOf,
        (oksOf d).map TimeSeries.ric, lastFields (oksOf d)) ∧
      (∀ df ∈ (oksOf d).map frameOf,
        ColLabel.single "TIMESTAMP" ∉ df.columns ∧
        ∀ x ∈ df.index, validIsoDatetime x.val = true) ∧
      "TIMESTAMP" ∉ lastFields (oksOf d)) ∧
    (∀ w, niceGetDataFrame ⟨d⟩ = .ok (.frame w) →
      ColLabel.single "TIMESTAMP" ∉ w.columns ∧
      ∀ r f, ColLabel.pair r f ∈ w.columns → f ≠ "TIMESTAMP") ∧
    (∀ lf, normalizedGetDataFrame ⟨d⟩ = .ok lf →
      lf.columns = ["Date", "Security", "Field", "Value"]) := by
  have hg : get_frame_list d = .ok ((oksOf d).map frameOf,
      (oksOf d).map TimeSeries.ric, lastFields (oksOf d)) :=
    get_frame_list_of_wf (fun t ht hok => hwf t (List.mem_filter.mpr ⟨ht, hok⟩))
  have hcnt : ∀ t ∈ oksOf d, fs0.count "TIMESTAMP" = 1 := by
    intro t ht
    have h1 := (recordWf_parts (hwf t ht)).1
    rwa [hhom t ht] at h1
  refine ⟨get_frame_list_ok_ts_mem, ⟨hg, ?_, ?_⟩, ?_, fun lf h => normalized_columns h⟩
  · intro df hdf
    obtain ⟨t, ht, rfl⟩ := List.mem_map.mp hdf
    obtain ⟨hc1, _, _, hval, _⟩ := recordWf_parts (hwf t ht)
    constructor
    · intro hmem
      obtain ⟨a, ha, heq⟩ := List.mem_map.mp hmem
      have ha2 : a = "TIMESTAMP" := by
        injection heq
      exact not_mem_fieldsMinusTs hc1 (ha2 ▸ ha)
    · intro x hx
      obtain ⟨s, hs, rfl⟩ := List.mem_map.mp hx
      exact hval s hs
  · cases hok : oksOf d with
    | nil => simp [lastFields]
    | cons a rest =>
      have hne : oksOf d ≠ [] := by rw [hok]; simp
      rw [← hok, lastFields_of_hom hne hhom]
      exact not_mem_fieldsMinusTs (hcnt a (by rw [hok]; simp))
  · intro w hw
    have hallo : ∀ t ∈ oksOf d, okRecord t = true := fun t ht =>
      (List.mem_filter.mp ht).2
    obtain ⟨b1, b2, b3, b4, b5⟩ := niceShape_spec (oksOf d) fs0 hallo hwf hhom
    rw [niceGetDataFrame_eq_filter] at hw
    rcases Nat.eq_zero_or_pos (oksOf d).length with hR0 | hRpos
    · rw [b1 (List.length_eq_zero.mp hR0)] at hw
      cases hw
    · have hne : oksOf d ≠ [] := fun h0 => by
        rw [h0] at hRpos
        cases hRpos
      have hmem0 : ∃ t1, t1 ∈ oksOf d := by
        cases hc : oksOf d with
        | nil => exact absurd hc hne
        | cons a b => exact ⟨a, hc ▸ List.mem_cons_self a b⟩
      obtain ⟨t1, ht1⟩ := hmem0
      have hcnt1 := hcnt t1 ht1
      rcases Nat.eq_zero_or_pos (fieldsMinusTsL fs0).length with hF0 | hFpos
      · rw [b2 hne hF0] at hw
        cases hw
      · rcases Nat.lt_or_ge 1 (oksOf d).length with hR | hR
        · rcases Nat.lt_or_ge 1 (fieldsMinusTsL fs0).length with hFg | hFle
          · obtain ⟨w2, hw2, hcols, _⟩ := b5 hR hFg
            obtain rfl : w2 = w := by
              have h5 := hw2.symm.trans hw
              simpa using h5
            rw [hcols]
            constructor
            · intro hmem
              obtain ⟨t, _, hmt⟩ := List.mem_flatMap.mp hmem
              obtain ⟨f, _, heq⟩ := List.mem_map.mp hmt
              cases heq
            · intro r f hmem heq
              obtain ⟨t, _, hmt⟩ := List.mem_flatMap.mp hmem
              obtain ⟨f2, hf2, heq2⟩ := List.mem_map.mp hmt
              have : f2 = f := by injection heq2
              exact not_mem_fieldsMinusTs hcnt1 (heq ▸ this ▸ hf2)
          · have hF1 : (fieldsMinusTsL fs0).length = 1 := le_antisymm hFle hFpos
            obtain ⟨w2, hw2, hcols, _, _, _⟩ := b4 hR hF1
            obtain rfl : w2 = w := by
              have h5 := hw2.symm.trans hw
              simpa using h5
            rw [hcols]
            constructor
            · intro hmem
              obtain ⟨t, ht, heq⟩ := List.mem_map.mp hmem
              have : t.ric = "TIMESTAMP" := by injection heq
              exact hric t ht this
            · intro r f hmem heq
              obtain ⟨t, _, heq2⟩ := List.mem_map.mp hmem
              cases heq2
        · have hR1 : (oksOf d).length = 1 := le_antisymm hR hRpos
          obtain ⟨t0, ht0⟩ := List.length_eq_one.mp hR1
          obtain ⟨w2, hw2, hcols, _, _⟩ := b3 t0 ht0 hFpos
          obtain rfl : w2 = w := by
            have h5 := hw2.symm.trans hw
            simpa using h5
          rw [hcols]
          constructor
          · intro hmem
            obtain ⟨a, ha, heq⟩ := List.mem_map.mp hmem
            have : a = "TIMESTAMP" := by injection heq
            exact not_mem_fieldsMinusTs hcnt1 (this ▸ ha)
          · intro r f hmem heq
            obtain ⟨a, _, heq2⟩ := List.mem_map.mp hmem
            cases heq2

/-- C4 witness: the theorem instantiated at a concrete response with
one ok and one failing record. -/
theorem C4_timestamp_handling_witness :
    (∀ t ∈ oksOf [wrecA, wrecErr], recordWf t = true) ∧
    (∀ t ∈ oksOf [wrecA, wrecErr], t.fields = ["TIMESTAMP", "OPEN", "CLOSE"]) ∧
    (∀ t ∈ oksOf [wrecA, wrecErr], t.ric ≠ "TIMESTAMP") ∧
    ((∀ (d2 : List TimeSeries) (res : List PDFrame × List String × List String),
        get_frame_list d2 = .ok res →
        ∀ t ∈ d2, okRecord t = true → "TIMESTAMP" ∈ t.fields) ∧
     (get_frame_list [wrecA, wrecErr] = .ok ((oksOf [wrecA, wrecErr]).map frameOf,
         (oksOf [wrecA, wrecErr]).map TimeSeries.ric,
         lastFields (oksOf [wrecA, wrecErr])) ∧
       (∀ df ∈ (oksOf [wrecA, wrecErr]).map frameOf,
         ColLabel.single "TIMESTAMP" ∉ df.columns ∧
         ∀ x ∈ df.index, validIsoDatetime x.val = true) ∧
       "TIMESTAMP" ∉ lastFields (oksOf [wrecA, wrecErr])) ∧
     (∀ w, niceGetDataFrame ⟨[wrecA, wrecErr]⟩ = .ok (.frame w) →
       ColLabel.single "TIMESTAMP" ∉ w.columns ∧
       ∀ r f, ColLabel.pair r f ∈ w.columns → f ≠ "TIMESTAMP") ∧
     (∀ lf, normalizedGetDataFrame ⟨[wrecA, wrecErr]⟩ = .ok lf →
       lf.columns = ["Date", "Security", "Field", "Value"])) :=
  ⟨by decide, by decide, by decide,
   C4_timestamp_handling [wrecA, wrecErr] ["TIMESTAMP", "OPEN", "CLOSE"]
     (by decide) (by decide) (by decide)⟩

theorem zip4_append {α β γ δ : Type} (a1 : List α) (b1 : List β) (c1 : List γ)
    (d1 : List δ) (a2 : List α) (b2 : List β) (c2 : List γ) (d2 : List δ)
    (h1 : a1.length = b1.length) (h2 : a1.length = c1.length)
    (h3 : a1.length = d1.length) :
    zip4 (a1 ++ a2) (b1 ++ b2) (c1 ++ c2) (d1 ++ d2) =
      zip4 a1 b1 c1 d1 ++ zip4 a2 b2 c2 d2 := by
  induction a1 generalizing b1 c1 d1 with
  | nil =>
    cases b1 with
    | cons x xs => cases h1
    | nil =>
      cases c1 with
      | cons x xs => cases h2
      | nil =>
        cases d1 with
        | cons x xs => cases h3
        | nil => rfl
  | cons a as_ ih =>
    cases b1 with
    | nil => cases h1
    | cons b bs =>
      cases c1 with
      | nil => cases h2
      | cons c cs =>
        cases d1 with
        | nil => cases h3
        | cons dd ds =>
          show (a, b, c, dd) :: zip4 (as_ ++ a2) (bs ++ b2) (cs ++ c2) (ds ++ d2) = _
          rw [ih bs cs ds (by simpa using h1) (by simpa using h2) (by simpa using h3)]
          rfl

theorem zip4_one_row (fields2 : List String) (ric : String) (x : Datetime64)
    (r : List String) (hr : r.length = fields2.length) :
    zip4 (List.replicate fields2.length x) (List.replicate fields2.length ric)
      fields2 r =
      (fields2.zip r).map (fun q => (x, ric, q.1, q.2)) := by
  induction fields2 generalizing r with
  | nil => rfl
  | cons f ftl ih =>
    cases r with
    | nil => cases hr
    | cons v vs =>
      show (x, ric, f, v) :: zip4 (List.replicate ftl.length x)
        (List.replicate ftl.length ric) ftl vs = _
      rw [List.zip_cons_cons, List.map_cons, ih vs (by simpa using hr)]

theorem zip4_block (fields2 : List String) (ric : String) :
    ∀ (idx : List Datetime64) (dp : List (List String)),
      idx.length = dp.length →
      (∀ r ∈ dp, r.length = fields2.length) →
      zip4 ((idx.map (fun x => List.replicate fields2.length x)).flatten)
           (List.replicate (fields2.length * dp.length) ric)
           ((List.replicate dp.length fields2).flatten)
           dp.flatten =
        (idx.zip dp).flatMap (fun p => (fields2.zip p.2).map
          (fun q => (p.1, ric, q.1, q.2)))
  | [], [], _, _ => rfl
  | [], r :: rs, h, _ => by cases h
  | x :: xs, [], h, _ => by cases h
  | x :: xs, r :: rs, h, hrows => by
    have hr : r.length = fields2.length := hrows r (by simp)
    rw [List.map_cons, List.flatten_cons, List.length_cons, List.replicate_succ,
      List.flatten_cons, List.flatten_cons]
    have hmul : fields2.length * (rs.length + 1) =
        fields2.length + fields2.length * rs.length := by ring
    rw [hmul, List.replicate_add]
    rw [zip4_append _ _ _ _ _ _ _ _ (by simp) (by simp) (by simp [hr])]
    rw [List.zip_cons_cons, List.flatMap_cons]
    rw [zip4_one_row fields2 ric x r hr]
    rw [zip4_block fields2 ric xs rs (by simpa using h)
      (fun q hq => hrows q (by simp [hq]))]

theorem normalizedRecordRows_of_wf {t : TimeSeries} (h : recordWf t = true) :
    normalizedRecordRows t = .ok (longRowsSpec t) := by
  obtain ⟨hcount, hne, hrect, hvalid, _⟩ := recordWf_parts h
  have hmem : "TIMESTAMP" ∈ t.fields := List.count_pos_iff.mp (by omega)
  obtain ⟨i, hidx, hilt⟩ := idxOfTs_of_mem hmem
  have hpos : tsPos t = i := by simp [tsPos, hidx]
  obtain ⟨r0, rest, hdp⟩ : ∃ r0 rest, t.dataPoints = r0 :: rest := by
    cases hdp2 : t.dataPoints with
    | nil => exact absurd hdp2 hne
    | cons a b => exact ⟨a, b, rfl⟩
  have hr0 : r0.length = t.fields.length := hrect r0 (by rw [hdp]; simp)
  have hall2 : rest.all (fun r => r.length == r0.length) = true := by
    rw [List.all_eq_true]
    intro r hr
    have := hrect r (by rw [hdp]; exact List.mem_cons_of_mem _ hr)
    simp [this, hr0]
  have hi0 : i < r0.length := by omega
  have hnp : npTake t.dataPoints i = .ok (rawTsColumn t, deletedPoints t) := by
    rw [hdp]
    unfold npTake
    simp only [hall2, if_true, hi0, if_pos]
    rw [rawTsColumn, deletedPoints, hpos, hdp]
  have hparse : parseColumn (rawTsColumn t) = .ok (parsedIndex t) :=
    parseColumn_ok hvalid
  have hfm : t.fields.eraseIdx i = fieldsMinusTsL t.fields := by
    rw [fieldsMinusTsL, hidx]
    rfl
  have hlen : (parsedIndex t).length = (deletedPoints t).length := by
    rw [parsedIndex, rawTsColumn, deletedPoints]
    simp
  have hrows : ∀ r ∈ deletedPoints t, r.length = (fieldsMinusTsL t.fields).length := by
    intro r hr
    obtain ⟨r2, hr2, rfl⟩ := List.mem_map.mp hr
    have h2 := hrect r2 hr2
    rw [← hfm, List.length_eraseIdx, List.length_eraseIdx, hpos]
    rw [if_pos (by omega), if_pos hilt, h2]
  rw [normalizedRecordRows, hidx]
  dsimp only
  rw [hnp]
  dsimp only
  rw [hparse]
  dsimp only
  rw [hfm]
  rw [longRowsSpec]
  congr 1
  exact zip4_block (fieldsMinusTsL t.fields) t.ric (parsedIndex t)
    (deletedPoints t) hlen hrows

theorem normalizedRowsList_of_wf {d : List TimeSeries}
    (hall : ∀ t ∈ d, okRecord t = true)
    (hwf : ∀ t ∈ d, recordWf t = true) :
    normalizedRowsList d = .ok (d.map longRowsSpec) := by
  induction d with
  | nil => rfl
  | cons t rest ih =>
    have hok := hall t (by simp)
    have hb : ¬ (pyLower t.statusCode == "error") = true := by
      rw [okRecord] at hok
      simpa using hok
    rw [normalizedRowsList, if_neg hb, normalizedRecordRows_of_wf (hwf t (by simp))]
    dsimp only
    rw [ih (fun x hx => hall x (by simp [hx])) (fun x hx => hwf x (by simp [hx]))]
    rfl

theorem fieldsMinusTsL_length {fs : List String} (h : "TIMESTAMP" ∈ fs) :
    (fieldsMinusTsL fs).length = fs.length - 1 := by
  obtain ⟨i, hi, hlt⟩ := idxOfTs_of_mem h
  rw [fieldsMinusTsL, hi]
  simp [List.length_eraseIdx, hlt]

theorem longRows_length_aux (fields2 : List String) (ric : String) :
    ∀ (idx : List Datetime64) (dp : List (List String)),
      idx.length = dp.length →
      (∀ r ∈ dp, r.length = fields2.length) →
      ((idx.zip dp).flatMap (fun p => (fields2.zip p.2).map
        (fun q => (p.1, ric, q.1, q.2)))).length = dp.length * fields2.length
  | [], [], _, _ => by simp
  | [], r :: rs, h, _ => by cases h
  | x :: xs, [], h, _ => by cases h
  | x :: xs, r :: rs, h, hrows => by
    rw [List.zip_cons_cons, List.flatMap_cons, List.length_append, List.length_map,
      List.length_zip, hrows r (by simp), min_self,
      longRows_length_aux fields2 ric xs rs (by simpa using h)
        (fun q hq => hrows q (by simp [hq]))]
    rw [List.length_cons]
    ring

theorem longRowsSpec_length {t : TimeSeries} (h : recordWf t = true) :
    (longRowsSpec t).length = t.dataPoints.length * (t.fields.length - 1) := by
  obtain ⟨hcount, _, hrect, _, _⟩ := recordWf_parts h
  have hmem : "TIMESTAMP" ∈ t.fields := List.count_pos_iff.mp (by omega)
  obtain ⟨i, hidx, hilt⟩ := idxOfTs_of_mem hmem
  have hpos : tsPos t = i := by simp [tsPos, hidx]
  have hlen : (parsedIndex t).length = (deletedPoints t).length := by
    rw [parsedIndex, rawTsColumn, deletedPoints]
    simp
  have hrows : ∀ r ∈ deletedPoints t, r.length = (fieldsMinusTsL t.fields).length := by
    intro r hr
    obtain ⟨r2, hr2, rfl⟩ := List.mem_map.mp hr
    have h2 := hrect r2 hr2
    rw [fieldsMinusTsL_length hmem, List.length_eraseIdx, hpos]
    rw [if_pos (by omega), h2]
  rw [longRowsSpec, longRows_length_aux (fieldsMinusTsL t.fields) t.ric
    (parsedIndex t) (deletedPoints t) hlen hrows]
  rw [fieldsMinusTsL_length hmem, deletedPoints]
  simp

theorem flatMap_longRows_length {d : List TimeSeries}
    (hwf : ∀ t ∈ d, recordWf t = true) :
    (d.flatMap longRowsSpec).length =
      (d.map (fun t => t.dataPoints.length * (t.fields.length - 1))).sum := by
  induction d with
  | nil => rfl
  | cons t rest ih =>
    rw [List.flatMap_cons, List.length_append, List.map_cons, List.sum_cons,
      longRowsSpec_length (hwf t (by simp)),
      ih (fun x hx => hwf x (by simp [hx]))]

/-- C6: for a non-empty all-ok well-formed response with `normalize`
true, the long-form table has columns Date/Security/Field/Value, its
rows are exactly the per-record blocks concatenated in record order —
within a record the timestamps in original order and within a timestamp
the fields in original field order (the nested `flatMap` shape) — and
the row count is the sum over records of
(data rows x fields excluding TIMESTAMP). -/
theorem C6_long_form_rows (d : List TimeSeries)
    (hne : d ≠ [])
    (hall : ∀ t ∈ d, okRecord t = true)
    (hwf : ∀ t ∈ d, recordWf t = true) :
    ∃ lf, normalizedGetDataFrame ⟨d⟩ = .ok lf ∧
      lf.columns = ["Date", "Security", "Field", "Value"] ∧
      lf.rows = d.flatMap longRowsSpec ∧
      lf.rows.length =
        (d.map (fun t => t.dataPoints.length * (t.fields.length - 1))).sum := by
  have hrl := normalizedRowsList_of_wf hall hwf
  cases hd : d with
  | nil => exact absurd hd hne
  | cons a rest =>
    subst hd
    rw [normalizedGetDataFrame, hrl, List.map_cons]
    refine ⟨_, rfl, rfl, ?_, ?_⟩
    · show (longRowsSpec a :: rest.map longRowsSpec).flatten =
        (a :: rest).flatMap longRowsSpec
      rw [List.flatMap_def, List.map_cons]
    · show (longRowsSpec a :: rest.map longRowsSpec).flatten.length = _
      have h1 : (longRowsSpec a :: rest.map longRowsSpec).flatten =
          (a :: rest).flatMap longRowsSpec := by
        rw [List.flatMap_def, List.map_cons]
      rw [h1]
      exact flatMap_longRows_length hwf

/-- C6 witness: the theorem instantiated at a concrete two-record
all-ok response. -/
theorem C6_long_form_rows_witness :
    (([wrecA, wrecB] : List TimeSeries) ≠ []) ∧
    (∀ t ∈ [wrecA, wrecB], okRecord t = true) ∧
    (∀ t ∈ [wrecA, wrecB], recordWf t = true) ∧
    (∃ lf, normalizedGetDataFrame ⟨[wrecA, wrecB]⟩ = .ok lf ∧
      lf.columns = ["Date", "Security", "Field", "Value"] ∧
      lf.rows = [wrecA, wrecB].flatMap longRowsSpec ∧
      lf.rows.length = ([wrecA, wrecB].map
        (fun t => t.dataPoints.length * (t.fields.length - 1))).sum) :=
  ⟨by decide, by decide, by decide,
   C6_long_form_rows [wrecA, wrecB] (by decide) (by decide) (by decide)⟩

theorem ccCells_cell_none {dfs : List PDFrame}
    (hone : ∀ df ∈ dfs, df.columns.length = 1)
    (hrows : ∀ df ∈ dfs, ∀ r ∈ df.cells, r.length = 1)
    (hclen : ∀ df ∈ dfs, df.cells.length = df.index.length)
    (i j : Nat) (hi : i < (ccIndex dfs).length) (hj : j < dfs.length)
    (hmiss : (ccIndex dfs).getD i default ∉ (dfs.getD j default).index) :
    ((ccCells dfs).getD i []).getD j none = none := by
  have hdfj : dfs.getD j default ∈ dfs := by
    rw [List.getD_eq_getElem?_getD, List.getElem?_eq_getElem hj]
    exact List.getElem_mem hj
  rw [ccCells]
  by_cases hid : ccIdentical dfs = true
  · exfalso
    rw [ccIndex, if_pos hid] at hi hmiss
    have hteq : ((dfs.headD default).index.getD i default) ∈
        (dfs.headD default).index := by
      rw [List.getD_eq_getElem?_getD, List.getElem?_eq_getElem hi]
      exact List.getElem_mem hi
    rw [ccIdentical_eq hid _ hdfj] at hmiss
    exact hmiss hteq
  · rw [if_neg hid]
    have h1 : (((ccIndex dfs).map
        (fun t => dfs.flatMap (fun df => rowFor df t))).getD i []) =
        dfs.flatMap (fun df => rowFor df ((ccIndex dfs).getD i default)) :=
      getD_map_lt _ _ i hi [] default
    rw [h1]
    have h2 : (dfs.flatMap
        (fun df => rowFor df ((ccIndex dfs).getD i default))).getD j none =
        (rowFor (dfs.getD j default) ((ccIndex dfs).getD i default)).getD 0 none :=
      flatMap_singleton_getD dfs _
        (fun df hdf => rowFor_length _ (hone df hdf) (hrows df hdf) (hclen df hdf))
        j hj none default
    rw [h2, rowFor_of_not_mem hmiss, hone _ hdfj]
    rfl

/-- C5: for a response with more than one ok instrument, one field and
`normalize` false, the resulting wide frame's row index contains exactly
the union of the per-instrument timestamp sets (timestamp equality is
the join key), the index is chronologically sorted whenever the
per-instrument indexes are (no reordering of each instrument's
timestamps), and any cell whose instrument lacks data at that row's
timestamp holds the missing-value marker. -/
theorem C5_outer_join_on_timestamps (d : List TimeSeries) (fs0 : List String)
    (hall : ∀ t ∈ d, okRecord t = true)
    (hwf : ∀ t ∈ d, recordWf t = true)
    (hhom : ∀ t ∈ d, t.fields = fs0)
    (hR : d.length > 1)
    (hF1 : (fieldsMinusTsL fs0).length = 1)
    (hsorted : ∀ t ∈ d, List.Sorted dtLe (parsedIndex t)) :
    ∃ w, niceGetDataFrame ⟨d⟩ = .ok (.frame w) ∧
      (∀ x, x ∈ w.index ↔ ∃ t ∈ d, x ∈ parsedIndex t) ∧
      List.Sorted dtLe w.index ∧
      (∀ i j, i < w.index.length → j < d.length →
        w.index.getD i default ∉ parsedIndex (d.getD j default) →
        w.cellAt i j = none) := by
  obtain ⟨_, _, _, b4, _⟩ := niceShape_spec d fs0 hall hwf hhom
  obtain ⟨w, hw, _, _, hidx, hcells⟩ := b4 hR hF1
  have hlen : (d.map frameOf).length = (d.map TimeSeries.ric).length := by simp
  obtain ⟨rlen, rget, rmem, rmem2⟩ := renameFrames_parts (d.map frameOf)
    (d.map TimeSeries.ric) ((fieldsMinusTsL fs0).headD "") hlen
  set rframes := renameFrames (d.map frameOf) (d.map TimeSeries.ric)
    ((fieldsMinusTsL fs0).headD "") with hrf
  have hrlen : rframes.length = d.length := by
    rw [rlen]
    simp
  have hrne : rframes ≠ [] := by
    intro h0
    rw [h0] at hrlen
    simp at hrlen
    omega
  have hmemall : ∀ df2 ∈ rframes, ∃ t ∈ d, df2.index = parsedIndex t ∧
      df2.cells = deletedPoints t ∧ df2.columns.length = 1 := by
    intro df2 hdf2
    obtain ⟨df, hdf, hi1, hi2, _, hi4⟩ := rmem df2 hdf2
    obtain ⟨t, ht, rfl⟩ := List.mem_map.mp hdf
    refine ⟨t, ht, hi1, hi2, ?_⟩
    rw [hi4]
    show ((fieldsMinusTsL t.fields).map ColLabel.single).length = 1
    rw [hhom t ht]
    simpa using hF1
  refine ⟨w, hw, ?_, ?_, ?_⟩
  · intro x
    rw [hidx, mem_ccIndex hrne]
    constructor
    · rintro ⟨df2, hdf2, hx⟩
      obtain ⟨t, ht, hi1, _, _⟩ := hmemall df2 hdf2
      exact ⟨t, ht, hi1 ▸ hx⟩
    · rintro ⟨t, ht, hx⟩
      obtain ⟨df2, hdf2, hieq⟩ := rmem2 (frameOf t) (List.mem_map_of_mem frameOf ht)
      exact ⟨df2, hdf2, by rw [hieq]; exact hx⟩
  · rw [hidx]
    refine sorted_ccIndex ?_
    intro df2 hdf2
    obtain ⟨t, ht, hi1, _, _⟩ := hmemall df2 hdf2
    rw [hi1]
    exact hsorted t ht
  · intro i j hi hj hmiss
    rw [hidx] at hi hmiss
    rw [WideFrame.cellAt, hcells]
    have hone : ∀ df2 ∈ rframes, df2.columns.length = 1 := by
      intro df2 hdf2
      obtain ⟨_, _, _, _, h1⟩ := hmemall df2 hdf2
      exact h1
    have hrows : ∀ df2 ∈ rframes, ∀ r ∈ df2.cells, r.length = 1 := by
      intro df2 hdf2 r hr
      obtain ⟨t, ht, _, hc, _⟩ := hmemall df2 hdf2
      rw [hc] at hr
      obtain ⟨r2, hr2, rfl⟩ := List.mem_map.mp hr
      obtain ⟨hcount, _, hrect, _, _⟩ := recordWf_parts (hwf t ht)
      have hmem : "TIMESTAMP" ∈ t.fields := List.count_pos_iff.mp (by omega)
      obtain ⟨i2, hi2, hlt2⟩ := idxOfTs_of_mem hmem
      have hps : tsPos t = i2 := by simp [tsPos, hi2]
      rw [List.length_eraseIdx, hps, if_pos (by rw [hrect r2 hr2]; omega),
        hrect r2 hr2]
      have hfml : (fieldsMinusTsL t.fields).length = t.fields.length - 1 :=
        fieldsMinusTsL_length hmem
      rw [hhom t ht]
      rw [hhom t ht] at hfml
      omega
    have hclen : ∀ df2 ∈ rframes, df2.cells.length = df2.index.length := by
      intro df2 hdf2
      obtain ⟨t, ht, hi1, hc, _⟩ := hmemall df2 hdf2
      rw [hi1, hc, deletedPoints, parsedIndex, rawTsColumn]
      simp
    have hjr : j < rframes.length := by omega
    have hmiss2 : (ccIndex rframes).getD i default ∉
        (rframes.getD j default).index := by
      have hg1 : (rframes.getD j default).index =
          ((d.map frameOf).getD j default).index := (rget j).1
      have hg2 : ((d.map frameOf).getD j default) = frameOf (d.getD j default) :=
        getD_map_lt frameOf d j (by omega) default default
      rw [hg1, hg2]
      exact hmiss
    exact ccCells_cell_none hone hrows hclen i j hi hjr hmiss2

/-- C5 witness: two single-field instruments with disjoint timestamp
sets (scenario E). -/
theorem C5_outer_join_witness :
    (∀ t ∈ [wrecC5A, wrecC5B], okRecord t = true) ∧
    (∀ t ∈ [wrecC5A, wrecC5B], recordWf t = true) ∧
    (∀ t ∈ [wrecC5A, wrecC5B], t.fields = ["TIMESTAMP", "CLOSE"]) ∧
    (([wrecC5A, wrecC5B] : List TimeSeries).length > 1) ∧
    ((fieldsMinusTsL ["TIMESTAMP", "CLOSE"]).length = 1) ∧
    (∀ t ∈ [wrecC5A, wrecC5B], List.Sorted dtLe (parsedIndex t)) ∧
    (∃ w, niceGetDataFrame ⟨[wrecC5A, wrecC5B]⟩ = .ok (.frame w) ∧
      (∀ x, x ∈ w.index ↔ ∃ t ∈ [wrecC5A, wrecC5B], x ∈ parsedIndex t) ∧
      List.Sorted dtLe w.index ∧
      (∀ i j, i < w.index.length → j < ([wrecC5A, wrecC5B] : List TimeSeries).length →
        w.index.getD i default ∉ parsedIndex ([wrecC5A, wrecC5B].getD j default) →
        w.cellAt i j = none)) :=
  ⟨by decide, by decide, by decide, by decide, by decide, by decide,
   C5_outer_join_on_timestamps [wrecC5A, wrecC5B] ["TIMESTAMP", "CLOSE"]
     (by decide) (by decide) (by decide) (by decide) (by decide) (by decide)⟩
